import Mathlib

/-! # ntfy `cmd` package: the `access` and `user` commands

A shallow embedding of `cmd/access.go` and `cmd/user.go`.

The commands are glue around collaborators that live in other packages
(`user.Manager`, `user.ParsePermission`, `util.ReadPassword`, the process
environment, the terminal).  Every collaborator is an oracle: a function of
the history of interactions so far (the `Trace`) and of the call's arguments.
A command takes the trace before it runs and returns its Go result together
with the trace after it ran; every manager call, every `user.NewManager`,
every `user.ParsePermission`, every terminal read and every write to the
application's writers is one `Event` appended to the trace.  Pure look-ups
(`util.FileExists`, `os.LookupEnv`, `user.AllowedRole`, `user.AllowedTier`)
are not traced.

Go strings are Lean strings, standing for their UTF-8 bytes.  A `[]byte` is a
list of bytes.  A password, the one Go string that can be made from a `[]byte`
(`string(password)`), is kept as its bytes: `string(b)` is then `b` itself and
a string taken from the environment is turned into its UTF-8 bytes by
`goBytes`.
-/

namespace Ntfy

/-! ## Data model -/

/-- Error values handed to this package by its collaborators.
`ErrUserNotFound` is the sentinel `user.ErrUserNotFound`; `errors.Is(err,
user.ErrUserNotFound)` is equality with it. -/
inductive ExtError where
  | ErrUserNotFound
  | other (msg : String)
  deriving DecidableEq, Repr

/-- The Go `error` values the commands return: a collaborator's error passed
on unchanged (`return err`), or a fresh one made here by `errors.New` or
`fmt.Errorf`. -/
inductive Error where
  | ext (e : ExtError)
  | new (msg : String)
  deriving DecidableEq, Repr

/-- The four permissions of `user.Permission`. -/
inductive Permission where
  | ReadWrite
  | ReadOnly
  | WriteOnly
  | DenyAll
  deriving DecidableEq, Repr

/-- Modelled from the spec: `Permission.IsRead` (package `user`, not under
src/) is the can-read accessor: true for ReadWrite and ReadOnly. -/
def Permission.IsRead : Permission → Bool
  | .ReadWrite => true
  | .ReadOnly => true
  | .WriteOnly => false
  | .DenyAll => false

/-- Modelled from the spec: `Permission.IsWrite` (package `user`, not under
src/) is the can-write accessor: true for ReadWrite and WriteOnly. -/
def Permission.IsWrite : Permission → Bool
  | .ReadWrite => true
  | .ReadOnly => false
  | .WriteOnly => true
  | .DenyAll => false

/-- Modelled from the spec: `Permission.IsReadWrite` (package `user`, not
under src/) holds when both can-read and can-write hold. -/
def Permission.IsReadWrite (p : Permission) : Bool :=
  p.IsRead && p.IsWrite

/-- The fields of `user.Tier` the commands read. -/
structure Tier where
  Name : String
  deriving DecidableEq, Repr

/-- The fields of `user.User` the commands read; `Role` is the string type
`user.Role`, `Tier` is a nullable pointer. -/
structure User where
  Name : String
  Role : String
  Tier : Option Tier
  Provisioned : Bool
  deriving DecidableEq, Repr

/-- The fields of `user.Grant` the commands read. -/
structure Grant where
  TopicPattern : String
  Permission : Permission
  Provisioned : Bool
  deriving DecidableEq, Repr

/-- The `user.Config` literal built by `createUserManager`. -/
structure Config where
  Filename : String
  StartupQueries : String
  DefaultAccess : Permission
  ProvisionEnabled : Bool
  BcryptCost : Nat
  QueueWriterInterval : Nat
  deriving DecidableEq, Repr

/-- A byte of a `[]byte`. -/
abbrev Byte := Fin 256

/-- The byte with the value `n` (taken modulo 256). -/
def byte (n : Nat) : Byte := ⟨n % 256, Nat.mod_lt n (by decide)⟩

/-- The UTF-8 encoding of one character. -/
def utf8Char (c : Char) : List Byte :=
  let v := c.toNat
  if v ≤ 0x7f then [byte v]
  else if v ≤ 0x7ff then [byte (0xc0 + v / 64), byte (0x80 + v % 64)]
  else if v ≤ 0xffff then
    [byte (0xe0 + v / 4096), byte (0x80 + v / 64 % 64), byte (0x80 + v % 64)]
  else
    [byte (0xf0 + v / 262144), byte (0x80 + v / 4096 % 64), byte (0x80 + v / 64 % 64),
      byte (0x80 + v % 64)]

/-- The bytes of a Go string: the UTF-8 encoding of the Lean string that
stands for it. -/
def goBytes (s : String) : List Byte :=
  s.data.flatMap utf8Char

/-- One interaction of a command with the outside. -/
inductive Event where
  | NewManager (conf : Config)
  | ParsePermission (s : String)
  | ReadPassword
  | User (username : String)
  | Users
  | Grants (username : String)
  | DefaultAccess
  | AllowAccess (username topic : String) (permission : Permission)
  | ResetAccess (username topic : String)
  | AddUser (username : String) (password : List Byte) (role : String) (hashed : Bool)
  | RemoveUser (username : String)
  | ChangePassword (username : String) (password : List Byte) (hashed : Bool)
  | ChangeRole (username role : String)
  | ChangeTier (username tier : String)
  | ResetTier (username : String)
  | stdout (s : String)
  | stderr (s : String)
  deriving DecidableEq, Repr

/-- The history of interactions, oldest first. -/
abbrev Trace := List Event

/-- The calls that are methods of `*user.Manager`. -/
def Event.isManagerCall : Event → Bool
  | .User _ => true
  | .Users => true
  | .Grants _ => true
  | .DefaultAccess => true
  | .AllowAccess _ _ _ => true
  | .ResetAccess _ _ => true
  | .AddUser _ _ _ _ => true
  | .RemoveUser _ => true
  | .ChangePassword _ _ _ => true
  | .ChangeRole _ _ => true
  | .ChangeTier _ _ => true
  | .ResetTier _ => true
  | _ => false

/-- The calls to `manager.AllowAccess`. -/
def Event.isAllowAccess : Event → Bool
  | .AllowAccess _ _ _ => true
  | _ => false

/-- The calls to `manager.ResetAccess`. -/
def Event.isResetAccess : Event → Bool
  | .ResetAccess _ _ => true
  | _ => false

/-- The calls to `user.NewManager`. -/
def Event.isNewManager : Event → Bool
  | .NewManager _ => true
  | _ => false

/-- A `*user.Manager`: each method answers from the history before the call.
Methods returning only `error` answer `none` for `nil`. -/
structure Manager where
  User : Trace → String → Except ExtError User
  Users : Trace → Except ExtError (List Ntfy.User)
  Grants : Trace → String → Except ExtError (List Grant)
  DefaultAccess : Trace → Permission
  AllowAccess : Trace → String → String → Permission → Option ExtError
  ResetAccess : Trace → String → String → Option ExtError
  AddUser : Trace → String → List Byte → String → Bool → Option ExtError
  RemoveUser : Trace → String → Option ExtError
  ChangePassword : Trace → String → List Byte → Bool → Option ExtError
  ChangeRole : Trace → String → String → Option ExtError
  ChangeTier : Trace → String → String → Option ExtError
  ResetTier : Trace → String → Option ExtError

/-- Everything the package takes from outside itself: the constants and pure
functions of package `user`, the file system, the process environment, the
terminal, and the manager constructor. -/
structure World where
  Everyone : String
  RoleAdmin : String
  DefaultUserPasswordBcryptCost : Nat
  DefaultUserStatsQueueWriterInterval : Nat
  AllowedRole : String → Bool
  AllowedTier : String → Bool
  ParsePermission : String → Except ExtError Permission
  FileExists : String → Bool
  LookupEnv : String → Option String
  ReadPassword : Trace → Except ExtError (List Byte)
  NewManager : Trace → Config → Except ExtError Manager

/-- The parts of `*cli.Context` the commands read: positional arguments and
the values of the flags. -/
structure Context where
  args : List String
  reset : Bool
  role : String
  ignoreExists : Bool
  authFile : String
  authStartupQueries : String
  authDefaultAccess : String

/-- The call `c.NArg()`. -/
def Context.NArg (c : Context) : Nat := c.args.length

/-- The call `c.Args().Get(n)`: the n-th argument, or the empty string. -/
def Context.Get (c : Context) (n : Nat) : String := c.args.getD n ""

/-- The call `os.Getenv`: the value of the variable, or the empty string. -/
def World.Getenv (w : World) (key : String) : String := (w.LookupEnv key).getD ""

/-- The function `util.Contains` (package `util`): whether `needle` is an
element of `haystack`. -/
def util_Contains (haystack : List String) (needle : String) : Bool :=
  haystack.elem needle

/-! ## cmd/access.go -/

def userEveryone : String := "everyone"

def showUsers (w : World) (manager : Manager) : List User → Trace → Option Error × Trace
  | [], tr => (none, tr)
  | u :: users, tr =>
    match manager.Grants tr u.Name with
    | .error err => (some (.ext err), tr ++ [.Grants u.Name])
    | .ok grants =>
      let tr := tr ++ [.Grants u.Name]
      let tier := match u.Tier with
        | some t => t.Name
        | none => "none"
      let provisioned := if u.Provisioned then ", server config" else ""
      let tr := tr ++ [.stdout ("user " ++ u.Name ++ " (role: " ++ u.Role ++ ", tier: " ++ tier
        ++ provisioned ++ ")\n")]
      let tr :=
        if u.Role = w.RoleAdmin then
          tr ++ [.stdout "- read-write access to all topics (admin role)\n"]
        else if grants.length > 0 then
          tr ++ grants.map (fun grant =>
            let grantProvisioned := if grant.Provisioned then " (server config)" else ""
            if grant.Permission.IsReadWrite then
              .stdout ("- read-write access to topic " ++ grant.TopicPattern ++ grantProvisioned ++ "\n")
            else if grant.Permission.IsRead then
              .stdout ("- read-only access to topic " ++ grant.TopicPattern ++ grantProvisioned ++ "\n")
            else if grant.Permission.IsWrite then
              .stdout ("- write-only access to topic " ++ grant.TopicPattern ++ grantProvisioned ++ "\n")
            else
              .stdout ("- no access to topic " ++ grant.TopicPattern ++ grantProvisioned ++ "\n"))
        else
          tr ++ [.stdout "- no topic-specific permissions\n"]
      let tr :=
        if u.Name = w.Everyone then
          let access := manager.DefaultAccess tr
          let tr := tr ++ [.DefaultAccess]
          if access.IsReadWrite then
            tr ++ [.stdout "- read-write access to all (other) topics (server config)\n"]
          else if access.IsRead then
            tr ++ [.stdout "- read-only access to all (other) topics (server config)\n"]
          else if access.IsWrite then
            tr ++ [.stdout "- write-only access to all (other) topics (server config)\n"]
          else
            tr ++ [.stdout "- no access to any (other) topics (server config)\n"]
        else tr
      showUsers w manager users tr

def showUserAccess (w : World) (manager : Manager) (username : String) (tr : Trace) :
    Option Error × Trace :=
  match manager.User tr username with
  | .error err =>
    if err = .ErrUserNotFound then
      (some (.new ("user " ++ username ++ " does not exist")), tr ++ [.User username])
    else
      (some (.ext err), tr ++ [.User username])
  | .ok users => showUsers w manager [users] (tr ++ [.User username])

def showAllAccess (w : World) (manager : Manager) (tr : Trace) : Option Error × Trace :=
  match manager.Users tr with
  | .error err => (some (.ext err), tr ++ [.Users])
  | .ok users => showUsers w manager users (tr ++ [.Users])

def showAccess (w : World) (manager : Manager) (username : String) (tr : Trace) :
    Option Error × Trace :=
  if username = "" then
    showAllAccess w manager tr
  else
    showUserAccess w manager username tr

def resetUserTopicAccess (w : World) (manager : Manager) (username topic : String) (tr : Trace) :
    Option Error × Trace :=
  match manager.ResetAccess tr username topic with
  | some err => (some (.ext err), tr ++ [.ResetAccess username topic])
  | none =>
    let tr := tr ++ [.ResetAccess username topic]
    let tr := tr ++ [.stdout ("reset access for user " ++ username ++ " and topic " ++ topic ++ "\n\n")]
    showUserAccess w manager username tr

def resetUserAccess (w : World) (manager : Manager) (username : String) (tr : Trace) :
    Option Error × Trace :=
  match manager.ResetAccess tr username "" with
  | some err => (some (.ext err), tr ++ [.ResetAccess username ""])
  | none =>
    let tr := tr ++ [.ResetAccess username ""]
    let tr := tr ++ [.stdout ("reset access for user " ++ username ++ "\n\n")]
    showUserAccess w manager username tr

def resetAllAccess (manager : Manager) (tr : Trace) : Option Error × Trace :=
  match manager.ResetAccess tr "" "" with
  | some err => (some (.ext err), tr ++ [.ResetAccess "" ""])
  | none =>
    let tr := tr ++ [.ResetAccess "" ""]
    (none, tr ++ [.stdout "reset access for all users\n"])

def resetAccess (w : World) (manager : Manager) (username topic : String) (tr : Trace) :
    Option Error × Trace :=
  if username = "" then
    resetAllAccess manager tr
  else if topic = "" then
    resetUserAccess w manager username tr
  else
    resetUserTopicAccess w manager username topic tr

def changeAccess (w : World) (manager : Manager) (username topic perms : String) (tr : Trace) :
    Option Error × Trace :=
  if !util_Contains ["", "read-write", "rw", "read-only", "read", "ro", "write-only", "write",
      "wo", "none", "deny"] perms then
    (some (.new ("permission must be one of: read-write, read-only, write-only, or deny "
      ++ "(or the aliases: read, ro, write, wo, none)")), tr)
  else
    match w.ParsePermission perms with
    | .error err => (some (.ext err), tr ++ [.ParsePermission perms])
    | .ok permission =>
      let tr := tr ++ [.ParsePermission perms]
      match manager.User tr username with
      | .error err =>
        if err = .ErrUserNotFound then
          (some (.new ("user " ++ username ++ " does not exist")), tr ++ [.User username])
        else
          (some (.ext err), tr ++ [.User username])
      | .ok u =>
        let tr := tr ++ [.User username]
        if u.Role = w.RoleAdmin then
          (some (.new ("user " ++ username
            ++ " is an admin user, access control entries have no effect")), tr)
        else
          match manager.AllowAccess tr username topic permission with
          | some err => (some (.ext err), tr ++ [.AllowAccess username topic permission])
          | none =>
            let tr := tr ++ [.AllowAccess username topic permission]
            let tr :=
              if permission.IsReadWrite then
                tr ++ [.stdout ("granted read-write access to topic " ++ topic ++ "\n\n")]
              else if permission.IsRead then
                tr ++ [.stdout ("granted read-only access to topic " ++ topic ++ "\n\n")]
              else if permission.IsWrite then
                tr ++ [.stdout ("granted write-only access to topic " ++ topic ++ "\n\n")]
              else
                tr ++ [.stdout ("revoked all access to topic " ++ topic ++ "\n\n")]
            showUserAccess w manager username tr

/-! ## cmd/user.go -/

def tierReset : String := "-"

/-- The function `subtle.ConstantTimeByteEq` of the Go standard library:
`int((uint32(x^y) - 1) >> 31)`. -/
def ConstantTimeByteEq (x y : Nat) : Nat :=
  (((x ^^^ y) % 2 ^ 32 + 2 ^ 32 - 1) % 2 ^ 32) >>> 31

/-- The loop of `subtle.ConstantTimeCompare`: `v |= x[i] ^ y[i]` over the
common indices, `v` a byte. -/
def ConstantTimeCompare.loop : List Byte → List Byte → Nat → Nat
  | a :: x, b :: y, v => ConstantTimeCompare.loop x y ((v ||| (a.val ^^^ b.val)) % 256)
  | _, _, v => v

/-- The function `subtle.ConstantTimeCompare` of the Go standard library. -/
def ConstantTimeCompare (x y : List Byte) : Nat :=
  if x.length ≠ y.length then 0
  else ConstantTimeByteEq (ConstantTimeCompare.loop x y 0) 0

/-- The call `strings.Repeat(s, n)`. -/
def strings_Repeat (s : String) (n : Nat) : String :=
  String.join (List.replicate n s)

def createUserManager (w : World) (c : Context) (tr : Trace) : Except Error Manager × Trace :=
  let authFile := c.authFile
  let authStartupQueries := c.authStartupQueries
  let authDefaultAccess := c.authDefaultAccess
  if authFile = "" then
    (.error (.new "option auth-file not set; auth is unconfigured for this server"), tr)
  else if !w.FileExists authFile then
    (.error (.new "auth-file does not exist; please start the server at least once to create it"), tr)
  else
    match w.ParsePermission authDefaultAccess with
    | .error _ =>
      (.error (.new ("if set, auth-default-access must start set to " ++
        "'read-write', 'read-only', 'write-only' or 'deny-all'")),
        tr ++ [.ParsePermission authDefaultAccess])
    | .ok authDefault =>
      let tr := tr ++ [.ParsePermission authDefaultAccess]
      let authConfig : Config :=
        ⟨authFile, authStartupQueries, authDefault, false, w.DefaultUserPasswordBcryptCost,
          w.DefaultUserStatsQueueWriterInterval⟩
      match w.NewManager tr authConfig with
      | .error err => (.error (.ext err), tr ++ [.NewManager authConfig])
      | .ok manager => (.ok manager, tr ++ [.NewManager authConfig])

def readPasswordAndConfirm (w : World) (tr : Trace) : (List Byte × Option Error) × Trace :=
  let tr := tr ++ [.stderr "password: "]
  match w.ReadPassword tr with
  | .error err => (([], some (.ext err)), tr ++ [.ReadPassword])
  | .ok password =>
    let tr := tr ++ [.ReadPassword]
    if password.length = 0 then
      (([], some (.new "password cannot be empty")), tr)
    else
      let tr := tr ++ [.stderr ("\r" ++ strings_Repeat " " 25 ++ "\rconfirm: ")]
      match w.ReadPassword tr with
      | .error err => (([], some (.ext err)), tr ++ [.ReadPassword])
      | .ok confirm =>
        let tr := tr ++ [.ReadPassword]
        let tr := tr ++ [.stderr ("\r" ++ strings_Repeat " " 25 ++ "\r")]
        if ConstantTimeCompare confirm password ≠ 1 then
          (([], some (.new
            "passwords do not match: try it again, but this time type slooowwwlly")), tr)
        else
          ((password, none), tr)

def execUserAdd (w : World) (c : Context) (tr : Trace) : Option Error × Trace :=
  let username := c.Get 0
  let role := c.role
  let hashed := (w.LookupEnv "NTFY_PASSWORD_HASH").isSome
  let password := goBytes ((w.LookupEnv "NTFY_PASSWORD_HASH").getD "")
  let password := if !hashed then goBytes (w.Getenv "NTFY_PASSWORD") else password
  if username = "" then
    (some (.new "username expected, type 'ntfy user add --help' for help"), tr)
  else if username = userEveryone || username = w.Everyone then
    (some (.new "username not allowed"), tr)
  else if !w.AllowedRole role then
    (some (.new "role must be either 'user' or 'admin'"), tr)
  else
    match createUserManager w c tr with
    | (.error err, tr) => (some err, tr)
    | (.ok manager, tr) =>
      match manager.User tr username with
      | .ok _ =>
        let tr := tr ++ [.User username]
        if c.ignoreExists then
          (none, tr ++ [.stdout ("user " ++ username ++ " already exists (exited successfully)\n")])
        else
          (some (.new ("user " ++ username ++ " already exists")), tr)
      | .error _ =>
        let tr := tr ++ [.User username]
        let readResult :=
          if password = [] then readPasswordAndConfirm w tr
          else ((password, none), tr)
        match readResult with
        | ((_, some err), tr) => (some err, tr)
        | ((password, none), tr) =>
          match manager.AddUser tr username password role hashed with
          | some err => (some (.ext err), tr ++ [.AddUser username password role hashed])
          | none =>
            let tr := tr ++ [.AddUser username password role hashed]
            (none, tr ++ [.stdout ("user " ++ username ++ " added with role " ++ role ++ "\n")])

def execUserDel (w : World) (c : Context) (tr : Trace) : Option Error × Trace :=
  let username := c.Get 0
  if username = "" then
    (some (.new "username expected, type 'ntfy user del --help' for help"), tr)
  else if username = userEveryone || username = w.Everyone then
    (some (.new "username not allowed"), tr)
  else
    match createUserManager w c tr with
    | (.error err, tr) => (some err, tr)
    | (.ok manager, tr) =>
      match manager.User tr username with
      | .error .ErrUserNotFound =>
        (some (.new ("user " ++ username ++ " does not exist")), tr ++ [.User username])
      | _ =>
        let tr := tr ++ [.User username]
        match manager.RemoveUser tr username with
        | some err => (some (.ext err), tr ++ [.RemoveUser username])
        | none =>
          let tr := tr ++ [.RemoveUser username]
          (none, tr ++ [.stdout ("user " ++ username ++ " removed\n")])

def execUserChangePass (w : World) (c : Context) (tr : Trace) : Option Error × Trace :=
  let username := c.Get 0
  let hashed := (w.LookupEnv "NTFY_PASSWORD_HASH").isSome
  let password := goBytes ((w.LookupEnv "NTFY_PASSWORD_HASH").getD "")
  let password := if !hashed then goBytes (w.Getenv "NTFY_PASSWORD") else password
  if username = "" then
    (some (.new "username expected, type 'ntfy user change-pass --help' for help"), tr)
  else if username = userEveryone || username = w.Everyone then
    (some (.new "username not allowed"), tr)
  else
    match createUserManager w c tr with
    | (.error err, tr) => (some err, tr)
    | (.ok manager, tr) =>
      match manager.User tr username with
      | .error .ErrUserNotFound =>
        (some (.new ("user " ++ username ++ " does not exist")), tr ++ [.User username])
      | _ =>
        let tr := tr ++ [.User username]
        let readResult :=
          if password = [] then readPasswordAndConfirm w tr
          else ((password, none), tr)
        match readResult with
        | ((_, some err), tr) => (some err, tr)
        | ((password, none), tr) =>
          match manager.ChangePassword tr username password hashed with
          | some err => (some (.ext err), tr ++ [.ChangePassword username password hashed])
          | none =>
            let tr := tr ++ [.ChangePassword username password hashed]
            (none, tr ++ [.stdout ("changed password for user " ++ username ++ "\n")])

def execUserChangeRole (w : World) (c : Context) (tr : Trace) : Option Error × Trace :=
  let username := c.Get 0
  let role := c.Get 1
  if username = "" || !w.AllowedRole role then
    (some (.new ("username and new role expected, " ++
      "type 'ntfy user change-role --help' for help")), tr)
  else if username = userEveryone || username = w.Everyone then
    (some (.new "username not allowed"), tr)
  else
    match createUserManager w c tr with
    | (.error err, tr) => (some err, tr)
    | (.ok manager, tr) =>
      match manager.User tr username with
      | .error .ErrUserNotFound =>
        (some (.new ("user " ++ username ++ " does not exist")), tr ++ [.User username])
      | _ =>
        let tr := tr ++ [.User username]
        match manager.ChangeRole tr username role with
        | some err => (some (.ext err), tr ++ [.ChangeRole username role])
        | none =>
          let tr := tr ++ [.ChangeRole username role]
          (none, tr ++ [.stdout ("changed role for user " ++ username ++ " to " ++ role ++ "\n")])

def execUserChangeTier (w : World) (c : Context) (tr : Trace) : Option Error × Trace :=
  let username := c.Get 0
  let tier := c.Get 1
  if username = "" then
    (some (.new ("username and new tier expected, " ++
      "type 'ntfy user change-tier --help' for help")), tr)
  else if !w.AllowedTier tier && tier ≠ tierReset then
    (some (.new "invalid tier, must be tier code, or - to reset"), tr)
  else if username = userEveryone || username = w.Everyone then
    (some (.new "username not allowed"), tr)
  else
    match createUserManager w c tr with
    | (.error err, tr) => (some err, tr)
    | (.ok manager, tr) =>
      match manager.User tr username with
      | .error .ErrUserNotFound =>
        (some (.new ("user " ++ username ++ " does not exist")), tr ++ [.User username])
      | _ =>
        let tr := tr ++ [.User username]
        if tier = tierReset then
          match manager.ResetTier tr username with
          | some err => (some (.ext err), tr ++ [.ResetTier username])
          | none =>
            let tr := tr ++ [.ResetTier username]
            (none, tr ++ [.stdout ("removed tier from user " ++ username ++ "\n")])
        else
          match manager.ChangeTier tr username tier with
          | some err => (some (.ext err), tr ++ [.ChangeTier username tier])
          | none =>
            let tr := tr ++ [.ChangeTier username tier]
            (none, tr ++ [.stdout ("changed tier for user " ++ username ++ " to " ++ tier
              ++ "\n")])

def execUserList (w : World) (c : Context) (tr : Trace) : Option Error × Trace :=
  match createUserManager w c tr with
  | (.error err, tr) => (some err, tr)
  | (.ok manager, tr) =>
    match manager.Users tr with
    | .error err => (some (.ext err), tr ++ [.Users])
    | .ok users => showUsers w manager users (tr ++ [.Users])

/-! ## cmd/access.go: the command's action (it needs `createUserManager`) -/

def execUserAccess (w : World) (c : Context) (tr : Trace) : Option Error × Trace :=
  if c.NArg > 3 then
    (some (.new "too many arguments, please check 'ntfy access --help' for usage details"), tr)
  else
    match createUserManager w c tr with
    | (.error err, tr) => (some err, tr)
    | (.ok manager, tr) =>
      let username := c.Get 0
      let username := if username = userEveryone then w.Everyone else username
      let topic := c.Get 1
      let perms := c.Get 2
      let reset := c.reset
      if reset then
        if perms ≠ "" then
          (some (.new "too many arguments, please check 'ntfy access --help' for usage details"),
            tr)
        else
          resetAccess w manager username topic tr
      else if perms = "" then
        if topic ≠ "" then
          (some (.new "invalid syntax, please check 'ntfy access --help' for usage details"), tr)
        else
          showAccess w manager username tr
      else
        changeAccess w manager username topic perms tr

/-! ## Concrete collaborators, for evaluating the commands -/

/-- A manager over a store holding the regular user phil and the admin user
root; every mutating call succeeds. -/
def demoManager : Manager where
  User := fun _ name =>
    if name = "phil" then .ok ⟨"phil", "user", none, false⟩
    else if name = "root" then .ok ⟨"root", "admin", none, false⟩
    else .error .ErrUserNotFound
  Users := fun _ => .ok [⟨"phil", "user", none, false⟩, ⟨"root", "admin", none, false⟩]
  Grants := fun _ name =>
    if name = "root" then .ok [⟨"mytopic", .ReadOnly, false⟩] else .ok []
  DefaultAccess := fun _ => .ReadWrite
  AllowAccess := fun _ _ _ _ => none
  ResetAccess := fun _ _ _ => none
  AddUser := fun _ _ _ _ _ => none
  RemoveUser := fun _ _ => none
  ChangePassword := fun _ _ _ _ => none
  ChangeRole := fun _ _ _ => none
  ChangeTier := fun _ _ _ => none
  ResetTier := fun _ _ => none

/-- The permission strings `user.ParsePermission` understands in the demo
world. -/
def demoParsePermission (s : String) : Except ExtError Permission :=
  if s = "read-write" || s = "rw" then .ok .ReadWrite
  else if s = "read-only" || s = "read" || s = "ro" then .ok .ReadOnly
  else if s = "write-only" || s = "write" || s = "wo" then .ok .WriteOnly
  else if s = "deny-all" || s = "deny" || s = "none" then .ok .DenyAll
  else .error (.other "invalid permission")

/-- A world whose auth file `user.db` exists and whose manager is `manager`,
with the given process environment and the given terminal. -/
def demoWorld (manager : Manager) (env : String → Option String)
    (terminal : Trace → Except ExtError (List Byte)) : World where
  Everyone := "*"
  RoleAdmin := "admin"
  DefaultUserPasswordBcryptCost := 10
  DefaultUserStatsQueueWriterInterval := 33
  AllowedRole := fun r => r = "user" || r = "admin"
  AllowedTier := fun t => t = "pro"
  ParsePermission := demoParsePermission
  FileExists := fun f => f = "user.db"
  LookupEnv := env
  ReadPassword := terminal
  NewManager := fun _ _ => .ok manager

/-- The demo world with `demoManager`, an empty environment and a terminal at
end of input. -/
def demoWorld0 : World :=
  demoWorld demoManager (fun _ => none) (fun _ => .error (.other "EOF"))

/-- A command line with the given arguments and `--reset` flag, `auth-file`
set to `user.db` and the other flags at their defaults. -/
def demoContext (args : List String) (reset : Bool) : Context :=
  ⟨args, reset, "user", false, "user.db", "", "read-write"⟩

/-- A manager whose store is failing: `manager.User` returns a storage error
(not `ErrUserNotFound`) for every name, while every other call succeeds. -/
def failingLookupManager : Manager where
  User := fun _ _ => .error (.other "database is locked")
  Users := fun _ => .error (.other "database is locked")
  Grants := fun _ _ => .error (.other "database is locked")
  DefaultAccess := fun _ => .ReadWrite
  AllowAccess := fun _ _ _ _ => none
  ResetAccess := fun _ _ _ => none
  AddUser := fun _ _ _ _ _ => none
  RemoveUser := fun _ _ => none
  ChangePassword := fun _ _ _ _ => none
  ChangeRole := fun _ _ _ => none
  ChangeTier := fun _ _ _ => none
  ResetTier := fun _ _ => none

/-- The demo world over `failingLookupManager`, with `NTFY_PASSWORD` set to
hunter2. -/
def failingLookupWorld : World :=
  demoWorld failingLookupManager
    (fun key => if key = "NTFY_PASSWORD" then some "hunter2" else none)
    (fun _ => .error (.other "EOF"))

/-- The bytes of the word secret. -/
def secretBytes : List Byte := [115, 101, 99, 114, 101, 116]

/-- The demo world in which `NTFY_PASSWORD_HASH` is set to the empty string
and the word secret is typed at every password prompt. -/
def emptyHashWorld : World :=
  demoWorld demoManager
    (fun key => if key = "NTFY_PASSWORD_HASH" then some "" else none)
    (fun _ => .ok secretBytes)

/-! ## The dispatch of `execUserAccess` -/

/-- The branches of `execUserAccess`, in the order the usage text and the
code list them. -/
inductive AccessBranch where
  | tooManyArgs
  | resetTooMany
  | doReset
  | invalidSyntax
  | doShow
  | doChange
  deriving DecidableEq, Repr

/-- When a branch applies, on the number of positional arguments, TOPIC,
PERMISSION and the `--reset` flag. -/
def AccessBranch.applies (b : AccessBranch) (n : Nat) (topic perms : String) (flag : Bool) :
    Prop :=
  match b with
  | .tooManyArgs => n > 3
  | .resetTooMany => n ≤ 3 ∧ flag = true ∧ perms ≠ ""
  | .doReset => n ≤ 3 ∧ flag = true ∧ perms = ""
  | .invalidSyntax => n ≤ 3 ∧ flag = false ∧ perms = "" ∧ topic ≠ ""
  | .doShow => n ≤ 3 ∧ flag = false ∧ perms = "" ∧ topic = ""
  | .doChange => n ≤ 3 ∧ flag = false ∧ perms ≠ ""

/-- USERNAME as `execUserAccess` uses it: the first argument, with
"everyone" replaced by `user.Everyone`. -/
def accessUsername (w : World) (c : Context) : String :=
  if c.Get 0 = "everyone" then w.Everyone else c.Get 0

/-- The events of `after` that were appended to `before` contain no manager
call. -/
def NoManagerCallSince (before after : Trace) : Prop :=
  ∃ added : Trace, after = before ++ added ∧ ∀ e ∈ added, e.isManagerCall = false

/-- The interactions of displaying access: the read-only manager calls
`User`, `Grants` and `DefaultAccess`, and output to the writer. -/
def Event.isDisplay : Event → Bool
  | .User _ => true
  | .Grants _ => true
  | .DefaultAccess => true
  | .stdout _ => true
  | _ => false

/-- The events of `after` that were appended to `before` are all display
interactions. -/
def DisplayOnlySince (before after : Trace) : Prop :=
  ∃ added : Trace, after = before ++ added ∧ ∀ e ∈ added, e.isDisplay = true

/-- What `resetAccess (username, topic)` does with the manager, when it is to
call `manager.ResetAccess (a, b)`: that call is its first interaction and
everything after it is display only, and an error of that call is returned
unchanged with nothing after it. -/
def ResetsWith (w : World) (manager : Manager) (username topic a b : String) (tr : Trace) :
    Prop :=
  (∃ rest : Trace, (resetAccess w manager username topic tr).2 = tr ++ .ResetAccess a b :: rest
    ∧ ∀ e ∈ rest, e.isDisplay = true) ∧
  (∀ err, manager.ResetAccess tr a b = some err →
    resetAccess w manager username topic tr = (some (.ext err), tr ++ [.ResetAccess a b]))

/-- The permission strings that pass the first check of `changeAccess`: the
list given to `util.Contains` there. -/
def changeAccessAccepts (perms : String) : Bool :=
  util_Contains ["", "read-write", "rw", "read-only", "read", "ro", "write-only", "write",
    "wo", "none", "deny"] perms

/-- The ten permission strings the usage text of `ntfy access` documents. -/
def documentedPermissions : List String :=
  ["read-write", "rw", "read-only", "read", "ro", "write-only", "write", "wo", "deny", "none"]

/-- The error of the first check of `changeAccess`. -/
def permissionError : Error :=
  .new ("permission must be one of: read-write, read-only, write-only, or deny "
    ++ "(or the aliases: read, ro, write, wo, none)")

/-- The history at the first terminal read of `readPasswordAndConfirm`
started at `tr`. -/
def firstReadAt (tr : Trace) : Trace :=
  tr ++ [.stderr "password: "]

/-- The history at the second terminal read of `readPasswordAndConfirm`
started at `tr`. -/
def secondReadAt (tr : Trace) : Trace :=
  tr ++ [.stderr "password: "] ++ [.ReadPassword]
    ++ [.stderr ("\r" ++ strings_Repeat " " 25 ++ "\rconfirm: ")]

/-- Both terminal reads succeed, the first read is `p` and is not empty, and
the second read has the same length and the same bytes. -/
def ConfirmedAs (w : World) (tr : Trace) (p : List Byte) : Prop :=
  w.ReadPassword (firstReadAt tr) = .ok p ∧ p ≠ [] ∧ w.ReadPassword (secondReadAt tr) = .ok p

/-! ## The lines `showUsers` prints -/

/-- The header line of a user: the first `Fprintf` of the loop body. -/
def userHeaderLine (u : User) : String :=
  "user " ++ u.Name ++ " (role: " ++ u.Role ++ ", tier: "
    ++ (match u.Tier with
      | some t => t.Name
      | none => "none")
    ++ (if u.Provisioned then ", server config" else "") ++ ")\n"

/-- The line printed for an admin user. -/
def adminAccessLine : String := "- read-write access to all topics (admin role)\n"

/-- The line printed for a user without grants. -/
def noGrantsLine : String := "- no topic-specific permissions\n"

/-- The line `showUsers` prints for one grant. -/
def grantLine (grant : Grant) : String :=
  if grant.Permission.IsReadWrite then
    "- read-write access to topic " ++ grant.TopicPattern
      ++ (if grant.Provisioned then " (server config)" else "") ++ "\n"
  else if grant.Permission.IsRead then
    "- read-only access to topic " ++ grant.TopicPattern
      ++ (if grant.Provisioned then " (server config)" else "") ++ "\n"
  else if grant.Permission.IsWrite then
    "- write-only access to topic " ++ grant.TopicPattern
      ++ (if grant.Provisioned then " (server config)" else "") ++ "\n"
  else
    "- no access to topic " ++ grant.TopicPattern
      ++ (if grant.Provisioned then " (server config)" else "") ++ "\n"

/-- The four literal beginnings of a per-grant line. -/
def grantLineStarts : List String :=
  ["- read-write access to topic ", "- read-only access to topic ",
    "- write-only access to topic ", "- no access to topic "]

/-- The line `showUsers` prints for the default access, after the lines of
the user `user.Everyone`. -/
def defaultAccessLine (access : Permission) : String :=
  if access.IsReadWrite then "- read-write access to all (other) topics (server config)\n"
  else if access.IsRead then "- read-only access to all (other) topics (server config)\n"
  else if access.IsWrite then "- write-only access to all (other) topics (server config)\n"
  else "- no access to any (other) topics (server config)\n"

/-! ## The labels of the permissions -/

/-- The confirmation message of `changeAccess`: the `Fprintf` chain after
`manager.AllowAccess`. -/
def confirmationLine (permission : Permission) (topic : String) : String :=
  if permission.IsReadWrite then "granted read-write access to topic " ++ topic ++ "\n\n"
  else if permission.IsRead then "granted read-only access to topic " ++ topic ++ "\n\n"
  else if permission.IsWrite then "granted write-only access to topic " ++ topic ++ "\n\n"
  else "revoked all access to topic " ++ topic ++ "\n\n"

/-- The interactions of one round of the loop of `showUsers` for the user `u`
whose grants are `grants`, started at trace `tr`. -/
def userAccessEvents (w : World) (manager : Manager) (u : User) (grants : List Grant)
    (tr : Trace) : Trace :=
  [.Grants u.Name, .stdout (userHeaderLine u)] ++
    (if u.Role = w.RoleAdmin then [.stdout adminAccessLine]
      else if grants.length > 0 then grants.map (fun grant => .stdout (grantLine grant))
      else [.stdout noGrantsLine]) ++
    (if u.Name = w.Everyone then
      [.DefaultAccess, .stdout (defaultAccessLine (manager.DefaultAccess
        (tr ++ ([.Grants u.Name, .stdout (userHeaderLine u)] ++
          (if u.Role = w.RoleAdmin then [.stdout adminAccessLine]
            else if grants.length > 0 then grants.map (fun grant => .stdout (grantLine grant))
            else [.stdout noGrantsLine])))))]
    else [])

/-- The four labels a permission can get, in the words of the messages. -/
inductive AccessLabel where
  | readWrite
  | readOnly
  | writeOnly
  | noAccess
  deriving DecidableEq, Repr

/-- The label each permission is to get: ReadWrite read-write, ReadOnly
read-only, WriteOnly write-only, DenyAll no access. -/
def AccessLabel.ofPermission : Permission → AccessLabel
  | .ReadWrite => .readWrite
  | .ReadOnly => .readOnly
  | .WriteOnly => .writeOnly
  | .DenyAll => .noAccess

/-- The text of a label in the confirmation message of `changeAccess`. -/
def AccessLabel.confirmationText : AccessLabel → String → String
  | .readWrite, topic => "granted read-write access to topic " ++ topic ++ "\n\n"
  | .readOnly, topic => "granted read-only access to topic " ++ topic ++ "\n\n"
  | .writeOnly, topic => "granted write-only access to topic " ++ topic ++ "\n\n"
  | .noAccess, topic => "revoked all access to topic " ++ topic ++ "\n\n"

/-- The text of a label in the per-grant line of `showUsers`. -/
def AccessLabel.grantText : AccessLabel → String → Bool → String
  | .readWrite, pattern, provisioned => "- read-write access to topic " ++ pattern
      ++ (if provisioned then " (server config)" else "") ++ "\n"
  | .readOnly, pattern, provisioned => "- read-only access to topic " ++ pattern
      ++ (if provisioned then " (server config)" else "") ++ "\n"
  | .writeOnly, pattern, provisioned => "- write-only access to topic " ++ pattern
      ++ (if provisioned then " (server config)" else "") ++ "\n"
  | .noAccess, pattern, provisioned => "- no access to topic " ++ pattern
      ++ (if provisioned then " (server config)" else "") ++ "\n"

/-- The text of a label in the default-access line of `showUsers`. -/
def AccessLabel.defaultText : AccessLabel → String
  | .readWrite => "- read-write access to all (other) topics (server config)\n"
  | .readOnly => "- read-only access to all (other) topics (server config)\n"
  | .writeOnly => "- write-only access to all (other) topics (server config)\n"
  | .noAccess => "- no access to any (other) topics (server config)\n"

/-- The interactions of one round of the loop of `showUsers` for the user `u`
whose grants are `grants`, started at trace `tr`, with every permission shown
by the text of its label: each grant of a user who is not admin by
`grantText`, and the default access, for the user named `user.Everyone`, by
`defaultText`. -/
def labelledAccessEvents (w : World) (manager : Manager) (u : User) (grants : List Grant)
    (tr : Trace) : Trace :=
  [.Grants u.Name, .stdout (userHeaderLine u)] ++
    (if u.Role = w.RoleAdmin then [.stdout adminAccessLine]
      else if grants.length > 0 then
        grants.map (fun grant => .stdout
          ((AccessLabel.ofPermission grant.Permission).grantText grant.TopicPattern
            grant.Provisioned))
      else [.stdout noGrantsLine]) ++
    (if u.Name = w.Everyone then
      [.DefaultAccess, .stdout (AccessLabel.ofPermission (manager.DefaultAccess
        (tr ++ ([.Grants u.Name, .stdout (userHeaderLine u)] ++
          (if u.Role = w.RoleAdmin then [.stdout adminAccessLine]
            else if grants.length > 0 then
              grants.map (fun grant => .stdout
                ((AccessLabel.ofPermission grant.Permission).grantText grant.TopicPattern
                  grant.Provisioned))
            else [.stdout noGrantsLine]))))).defaultText]
    else [])

/-! ## Theorems -/

theorem goBytes_examples :
    goBytes "" = [] ∧ goBytes "secret" = [115, 101, 99, 114, 101, 116] ∧
    goBytes "é" = [0xc3, 0xa9] ∧ goBytes "€" = [0xe2, 0x82, 0xac] := by
  decide

theorem DisplayOnlySince.refl (tr : Trace) : DisplayOnlySince tr tr :=
  ⟨[], by simp⟩

theorem DisplayOnlySince.trans {a b c : Trace} (h₁ : DisplayOnlySince a b)
    (h₂ : DisplayOnlySince b c) : DisplayOnlySince a c := by
  obtain ⟨x, rfl, hx⟩ := h₁
  obtain ⟨y, rfl, hy⟩ := h₂
  refine ⟨x ++ y, by simp, ?_⟩
  intro e he
  rcases List.mem_append.mp he with h | h
  · exact hx e h
  · exact hy e h

theorem DisplayOnlySince.append {a b : Trace} (l : Trace) (h : DisplayOnlySince a b)
    (hl : ∀ e ∈ l, e.isDisplay = true) : DisplayOnlySince a (b ++ l) :=
  h.trans ⟨l, rfl, hl⟩

theorem DisplayOnlySince.ite {c : Prop} [Decidable c] {a x y : Trace}
    (hx : DisplayOnlySince a x) (hy : DisplayOnlySince a y) :
    DisplayOnlySince a (if c then x else y) := by
  split <;> assumption

theorem DisplayOnlySince.snoc {a b : Trace} (e : Event) (he : e.isDisplay = true)
    (h : DisplayOnlySince a b) : DisplayOnlySince a (b ++ [e]) :=
  h.append _ (by simpa using he)

theorem DisplayOnlySince.map {a b : Trace} (f : Grant → Event) (grants : List Grant)
    (hf : ∀ g, (f g).isDisplay = true) (h : DisplayOnlySince a b) :
    DisplayOnlySince a (b ++ grants.map f) := by
  refine h.append _ ?_
  intro e he
  obtain ⟨g, -, rfl⟩ := List.mem_map.mp he
  exact hf g

theorem showUsers_displayOnly (w : World) (manager : Manager) (users : List User) :
    ∀ tr : Trace, DisplayOnlySince tr (showUsers w manager users tr).2 := by
  induction users with
  | nil => intro tr; exact DisplayOnlySince.refl tr
  | cons u users ih =>
    intro tr
    simp only [showUsers]
    split
    · exact (DisplayOnlySince.refl tr).snoc (.Grants u.Name) rfl
    · refine DisplayOnlySince.trans ?_ (ih _)
      repeat' (first
        | exact DisplayOnlySince.refl _
        | rfl
        | apply DisplayOnlySince.ite
        | (refine DisplayOnlySince.snoc _ ?_ ?_)
        | (refine DisplayOnlySince.map _ _ (fun g => ?_) ?_)
        | (dsimp only; split_ifs <;> rfl))

theorem showUserAccess_displayOnly (w : World) (manager : Manager) (username : String)
    (tr : Trace) : DisplayOnlySince tr (showUserAccess w manager username tr).2 := by
  unfold showUserAccess
  split
  · split <;> exact (DisplayOnlySince.refl tr).snoc (.User username) rfl
  · exact ((DisplayOnlySince.refl tr).snoc (.User username) rfl).trans
      (showUsers_displayOnly w manager _ _)


theorem createUserManager_noManagerCall (w : World) (c : Context) (tr : Trace) :
    NoManagerCallSince tr (createUserManager w c tr).2 := by
  unfold createUserManager NoManagerCallSince
  simp only []
  split
  · exact ⟨[], by simp⟩
  · split
    · exact ⟨[], by simp⟩
    · split
      · exact ⟨[.ParsePermission c.authDefaultAccess], by simp [Event.isManagerCall]⟩
      · split <;>
          exact ⟨_, List.append_assoc _ _ _, by simp [Event.isManagerCall]⟩

theorem accessBranch_existsUnique (n : Nat) (topic perms : String) (flag : Bool) :
    ∃! b : AccessBranch, b.applies n topic perms flag := by
  by_cases hn : n > 3
  · refine ⟨.tooManyArgs, hn, fun b hb => ?_⟩
    cases b <;> first | rfl | (simp only [AccessBranch.applies] at hb; omega)
  · have hn3 : n ≤ 3 := by omega
    cases flag
    · by_cases hp : perms = ""
      · by_cases ht : topic = ""
        · refine ⟨.doShow, ⟨hn3, rfl, hp, ht⟩, fun b hb => ?_⟩
          cases b <;> first | rfl | (simp only [AccessBranch.applies] at hb; omega) |
            simp_all [AccessBranch.applies]
        · refine ⟨.invalidSyntax, ⟨hn3, rfl, hp, ht⟩, fun b hb => ?_⟩
          cases b <;> first | rfl | (simp only [AccessBranch.applies] at hb; omega) |
            simp_all [AccessBranch.applies]
      · refine ⟨.doChange, ⟨hn3, rfl, hp⟩, fun b hb => ?_⟩
        cases b <;> first | rfl | (simp only [AccessBranch.applies] at hb; omega) |
          simp_all [AccessBranch.applies]
    · by_cases hp : perms = ""
      · refine ⟨.doReset, ⟨hn3, rfl, hp⟩, fun b hb => ?_⟩
        cases b <;> first | rfl | (simp only [AccessBranch.applies] at hb; omega) |
          simp_all [AccessBranch.applies]
      · refine ⟨.resetTooMany, ⟨hn3, rfl, hp⟩, fun b hb => ?_⟩
        cases b <;> first | rfl | (simp only [AccessBranch.applies] at hb; omega) |
          simp_all [AccessBranch.applies]

/-- C1 (as stated, refuted): with no `--reset`, PERMISSION empty and TOPIC
non-empty the branch "invalid syntax" applies, yet when the `auth-file` option
is unset `execUserAccess` returns the error of `createUserManager`, not the
"invalid syntax" error. -/
theorem execUserAccess_dispatch_counterexample :
    AccessBranch.invalidSyntax.applies 2 "mytopic" "" false ∧
    execUserAccess demoWorld0 ⟨["phil", "mytopic"], false, "user", false, "", "", "read-write"⟩ []
      = (some (.new "option auth-file not set; auth is unconfigured for this server"), []) ∧
    (execUserAccess demoWorld0
        ⟨["phil", "mytopic"], false, "user", false, "", "", "read-write"⟩ []).1
      ≠ some (.new "invalid syntax, please check 'ntfy access --help' for usage details") := by
  refine ⟨by simp [AccessBranch.applies], by decide, by decide⟩

/-- C1 (amended): exactly one of the six branch conditions holds for every
input; with more than 3 arguments `execUserAccess` returns the "too many
arguments" error with the trace untouched (no manager is created); otherwise
it runs `createUserManager`, which makes no manager call, and if that fails it
returns that error and does nothing more; if it yields a manager, the branch
that applies decides the action: `--reset` with PERMISSION gives the "too many
arguments" error and nothing more, `--reset` otherwise runs `resetAccess`
(USERNAME, TOPIC), no reset with PERMISSION empty and TOPIC non-empty gives
the "invalid syntax" error and nothing more, with both empty it runs
`showAccess` (USERNAME), and with PERMISSION non-empty it runs `changeAccess`
(USERNAME, TOPIC, PERMISSION); USERNAME "everyone" is replaced by
`user.Everyone`. -/
theorem execUserAccess_dispatch (w : World) (c : Context) (tr : Trace) :
    (∃! b : AccessBranch, b.applies c.NArg (c.Get 1) (c.Get 2) c.reset) ∧
    (AccessBranch.tooManyArgs.applies c.NArg (c.Get 1) (c.Get 2) c.reset →
      execUserAccess w c tr = (some (.new
        "too many arguments, please check 'ntfy access --help' for usage details"), tr)) ∧
    NoManagerCallSince tr (createUserManager w c tr).2 ∧
    (c.NArg ≤ 3 → ∀ err tr1, createUserManager w c tr = (.error err, tr1) →
      execUserAccess w c tr = (some err, tr1)) ∧
    (∀ manager tr1, createUserManager w c tr = (.ok manager, tr1) →
      (AccessBranch.resetTooMany.applies c.NArg (c.Get 1) (c.Get 2) c.reset →
        execUserAccess w c tr = (some (.new
          "too many arguments, please check 'ntfy access --help' for usage details"), tr1)) ∧
      (AccessBranch.doReset.applies c.NArg (c.Get 1) (c.Get 2) c.reset →
        execUserAccess w c tr = resetAccess w manager (accessUsername w c) (c.Get 1) tr1) ∧
      (AccessBranch.invalidSyntax.applies c.NArg (c.Get 1) (c.Get 2) c.reset →
        execUserAccess w c tr = (some (.new
          "invalid syntax, please check 'ntfy access --help' for usage details"), tr1)) ∧
      (AccessBranch.doShow.applies c.NArg (c.Get 1) (c.Get 2) c.reset →
        execUserAccess w c tr = showAccess w manager (accessUsername w c) tr1) ∧
      (AccessBranch.doChange.applies c.NArg (c.Get 1) (c.Get 2) c.reset →
        execUserAccess w c tr
          = changeAccess w manager (accessUsername w c) (c.Get 1) (c.Get 2) tr1)) := by
  refine ⟨accessBranch_existsUnique _ _ _ _, ?_, createUserManager_noManagerCall w c tr, ?_, ?_⟩
  · intro h
    simp only [AccessBranch.applies] at h
    simp [execUserAccess, h]
  · intro h err tr1 hc
    have : ¬ c.NArg > 3 := by omega
    simp [execUserAccess, this, hc]
  · intro manager tr1 hc
    simp only [AccessBranch.applies]
    refine ⟨?_, ?_, ?_, ?_, ?_⟩ <;> intro h <;>
      have hn : ¬ c.NArg > 3 := by omega
    all_goals simp [execUserAccess, hn, hc, h, accessUsername, userEveryone]

/-- C1 witness: `ntfy access --reset phil mytopic` in the demo world runs
`resetAccess` for (phil, mytopic). -/
theorem execUserAccess_dispatch_witness :
    AccessBranch.doReset.applies 2 "mytopic" "" true ∧
    execUserAccess demoWorld0 (demoContext ["phil", "mytopic"] true) []
      = resetAccess demoWorld0 demoManager "phil" "mytopic"
          [.ParsePermission "read-write",
            .NewManager ⟨"user.db", "", .ReadWrite, false, 10, 33⟩] :=
  ⟨by simp [AccessBranch.applies],
    ((execUserAccess_dispatch demoWorld0 (demoContext ["phil", "mytopic"] true) []).2.2.2.2
      demoManager _ (by rfl)).2.1 (by simp [AccessBranch.applies, demoContext, Context.NArg, Context.Get])⟩

theorem resetUserAccess_resets (w : World) (manager : Manager) (u : String) (tr : Trace) :
    (∃ rest : Trace, (resetUserAccess w manager u tr).2 = tr ++ .ResetAccess u "" :: rest
      ∧ ∀ e ∈ rest, e.isDisplay = true) ∧
    (∀ err, manager.ResetAccess tr u "" = some err →
      resetUserAccess w manager u tr = (some (.ext err), tr ++ [.ResetAccess u ""])) := by
  constructor
  · unfold resetUserAccess
    split
    · exact ⟨[], rfl, by simp⟩
    · obtain ⟨added, hadd, hdisp⟩ := showUserAccess_displayOnly w manager u
        (tr ++ [.ResetAccess u ""] ++ [.stdout ("reset access for user " ++ u ++ "\n\n")])
      refine ⟨.stdout ("reset access for user " ++ u ++ "\n\n") :: added, ?_, ?_⟩
      · rw [hadd]; simp
      · intro e he
        rcases List.mem_cons.mp he with rfl | h
        · rfl
        · exact hdisp e h
  · intro err herr
    simp [resetUserAccess, herr]

theorem resetUserTopicAccess_resets (w : World) (manager : Manager) (u t : String)
    (tr : Trace) :
    (∃ rest : Trace, (resetUserTopicAccess w manager u t tr).2 = tr ++ .ResetAccess u t :: rest
      ∧ ∀ e ∈ rest, e.isDisplay = true) ∧
    (∀ err, manager.ResetAccess tr u t = some err →
      resetUserTopicAccess w manager u t tr = (some (.ext err), tr ++ [.ResetAccess u t])) := by
  constructor
  · unfold resetUserTopicAccess
    split
    · exact ⟨[], rfl, by simp⟩
    · obtain ⟨added, hadd, hdisp⟩ := showUserAccess_displayOnly w manager u
        (tr ++ [.ResetAccess u t] ++
          [.stdout ("reset access for user " ++ u ++ " and topic " ++ t ++ "\n\n")])
      refine ⟨.stdout ("reset access for user " ++ u ++ " and topic " ++ t ++ "\n\n") :: added,
        ?_, ?_⟩
      · rw [hadd]; simp
      · intro e he
        rcases List.mem_cons.mp he with rfl | h
        · rfl
        · exact hdisp e h
  · intro err herr
    simp [resetUserTopicAccess, herr]

theorem resetAllAccess_resets (manager : Manager) (tr : Trace) :
    (∃ rest : Trace, (resetAllAccess manager tr).2 = tr ++ .ResetAccess "" "" :: rest
      ∧ (∀ e ∈ rest, e.isDisplay = true) ∧ ∀ e ∈ rest, e.isManagerCall = false) ∧
    (∀ err, manager.ResetAccess tr "" "" = some err →
      resetAllAccess manager tr = (some (.ext err), tr ++ [.ResetAccess "" ""])) := by
  constructor
  · unfold resetAllAccess
    split
    · exact ⟨[], rfl, by simp, by simp⟩
    · exact ⟨[.stdout "reset access for all users\n"], by simp,
        by simp [Event.isDisplay], by simp [Event.isManagerCall]⟩
  · intro err herr
    simp [resetAllAccess, herr]

/-- C2 (as stated, refuted): in the demo world `resetAccess ("phil", "")`
makes three manager calls, not one: after `manager.ResetAccess` succeeds it
goes on to `manager.User` and `manager.Grants` to display phil's access. -/
theorem resetAccess_oneCall_counterexample :
    (resetAccess demoWorld0 demoManager "phil" "" []).2.filter Event.isManagerCall
      = [.ResetAccess "phil" "", .User "phil", .Grants "phil"] ∧
    ((resetAccess demoWorld0 demoManager "phil" "" []).2.filter Event.isManagerCall).length
      ≠ 1 := by
  constructor <;> decide

/-- C2 (amended): for non-empty `u` and `t`, `resetAccess ("", "")` calls
`manager.ResetAccess ("", "")`, `resetAccess (u, "")` calls
`manager.ResetAccess (u, "")` and `resetAccess (u, t)` calls
`manager.ResetAccess (u, t)`; in each case that call is the command's first
interaction and its only `ResetAccess` (everything after it is display only:
output and the read-only `User`, `Grants`, `DefaultAccess`; after
`resetAccess ("", "")` no manager call at all), and if the call returns an
error the command returns that same error and does nothing after it. -/
theorem resetAccess_resets (w : World) (manager : Manager) (tr : Trace) (u t : String)
    (hu : u ≠ "") (ht : t ≠ "") :
    ResetsWith w manager "" "" "" "" tr ∧
    ResetsWith w manager u "" u "" tr ∧
    ResetsWith w manager u t u t tr ∧
    (∀ e ∈ ((resetAccess w manager "" "" tr).2.drop tr.length).filter Event.isManagerCall,
      e = .ResetAccess "" "") := by
  refine ⟨?_, ?_, ?_, ?_⟩
  · have h := resetAllAccess_resets manager tr
    simp only [ResetsWith, resetAccess, if_true]
    exact ⟨⟨h.1.choose, h.1.choose_spec.1, h.1.choose_spec.2.1⟩, h.2⟩
  · simp only [ResetsWith, resetAccess, hu, if_false, if_true]
    exact resetUserAccess_resets w manager u tr
  · simp only [ResetsWith, resetAccess, hu, ht, if_false]
    exact resetUserTopicAccess_resets w manager u t tr
  · obtain ⟨⟨rest, hrest, -, hno⟩, -⟩ := resetAllAccess_resets manager tr
    simp only [resetAccess, if_true, hrest, List.drop_left]
    intro e he
    rcases List.mem_filter.mp he with ⟨hmem, hcall⟩
    rcases List.mem_cons.mp hmem with rfl | h
    · rfl
    · rw [hno e h] at hcall
      exact absurd hcall (by decide)

/-- C2 witness: the amended claim at phil and mytopic. -/
theorem resetAccess_resets_witness :
    ResetsWith demoWorld0 demoManager "" "" "" "" [] ∧
    ResetsWith demoWorld0 demoManager "phil" "" "phil" "" [] ∧
    ResetsWith demoWorld0 demoManager "phil" "mytopic" "phil" "mytopic" [] ∧
    (∀ e ∈ ((resetAccess demoWorld0 demoManager "" "" []).2.drop
        ([] : Trace).length).filter Event.isManagerCall, e = .ResetAccess "" "") :=
  resetAccess_resets demoWorld0 demoManager [] "phil" "mytopic" (by decide) (by decide)

/-- C3: each of `execUserAdd`, `execUserDel`, `execUserChangePass`,
`execUserChangeRole` and `execUserChangeTier`, called with USERNAME
"everyone" or `user.Everyone`, returns an error and leaves the trace as it
was, whatever the world and the rest of the command line are: no manager is
constructed and no manager operation is made. -/
theorem execUser_reserved_name (w : World) (c : Context) (tr : Trace)
    (h : c.Get 0 = "everyone" ∨ c.Get 0 = w.Everyone) :
    (∃ err, execUserAdd w c tr = (some err, tr)) ∧
    (∃ err, execUserDel w c tr = (some err, tr)) ∧
    (∃ err, execUserChangePass w c tr = (some err, tr)) ∧
    (∃ err, execUserChangeRole w c tr = (some err, tr)) ∧
    (∃ err, execUserChangeTier w c tr = (some err, tr)) := by
  have hev : (c.Get 0 = userEveryone || c.Get 0 = w.Everyone) = true := by
    rcases h with h | h <;> simp [h, userEveryone]
  refine ⟨?_, ?_, ?_, ?_, ?_⟩
  · unfold execUserAdd
    by_cases h0 : c.Get 0 = ""
    · simp [h0]
    · simp [h0, hev]
  · unfold execUserDel
    by_cases h0 : c.Get 0 = ""
    · simp [h0]
    · simp [h0, hev]
  · unfold execUserChangePass
    by_cases h0 : c.Get 0 = ""
    · simp [h0]
    · simp [h0, hev]
  · unfold execUserChangeRole
    by_cases h0 : (c.Get 0 = "" || !w.AllowedRole (c.Get 1)) = true
    · simp only [h0, if_true]
      exact ⟨_, rfl⟩
    · simp only [h0, hev, if_false, if_true]
      exact ⟨_, rfl⟩
  · unfold execUserChangeTier
    by_cases h0 : c.Get 0 = ""
    · simp [h0]
    · by_cases h1 : (!w.AllowedTier (c.Get 1) && decide (c.Get 1 ≠ tierReset)) = true
      · simp only [h0, h1, if_false, if_true]
        exact ⟨_, rfl⟩
      · simp only [h0, h1, hev, if_false, if_true]
        exact ⟨_, rfl⟩

/-- C3 witness: `ntfy user add everyone`, `ntfy user del everyone`, ... in the
demo world. -/
theorem execUser_reserved_name_witness :
    (∃ err, execUserAdd demoWorld0 (demoContext ["everyone", "admin"] false) []
      = (some err, [])) ∧
    (∃ err, execUserDel demoWorld0 (demoContext ["everyone", "admin"] false) []
      = (some err, [])) ∧
    (∃ err, execUserChangePass demoWorld0 (demoContext ["everyone", "admin"] false) []
      = (some err, [])) ∧
    (∃ err, execUserChangeRole demoWorld0 (demoContext ["everyone", "admin"] false) []
      = (some err, [])) ∧
    (∃ err, execUserChangeTier demoWorld0 (demoContext ["everyone", "admin"] false) []
      = (some err, [])) :=
  execUser_reserved_name demoWorld0 (demoContext ["everyone", "admin"] false) []
    (Or.inl (by decide))

theorem filter_isAllowAccess_of_display (l : Trace) (h : ∀ e ∈ l, e.isDisplay = true) :
    l.filter Event.isAllowAccess = [] := by
  rw [List.filter_eq_nil_iff]
  intro e he
  have := h e he
  cases e <;> simp_all [Event.isDisplay, Event.isAllowAccess]

theorem changeAccess_granted_trace (w : World) (manager : Manager)
    (username topic perms : String) (tr : Trace) (permission : Permission) (u : User)
    (hperms : changeAccessAccepts perms = true)
    (hparse : w.ParsePermission perms = .ok permission)
    (huser : manager.User (tr ++ [.ParsePermission perms]) username = .ok u)
    (hrole : u.Role ≠ w.RoleAdmin) :
    DisplayOnlySince
      (tr ++ [.ParsePermission perms] ++ [.User username]
        ++ [.AllowAccess username topic permission])
      (changeAccess w manager username topic perms tr).2 := by
  unfold changeAccessAccepts at hperms
  unfold changeAccess
  simp only [hperms, Bool.not_true, Bool.false_eq_true, if_false, hparse, huser, hrole]
  split
  · exact DisplayOnlySince.refl _
  · refine DisplayOnlySince.trans ?_ (showUserAccess_displayOnly w manager username _)
    repeat' (first
      | exact DisplayOnlySince.refl _
      | rfl
      | apply DisplayOnlySince.ite
      | (refine DisplayOnlySince.snoc _ ?_ ?_))

/-- C4: for a permission string that `changeAccess` accepts and
`user.ParsePermission` parses to `permission`: if `manager.User (username)`
returns a user whose role is not admin, the interactions `changeAccess` adds
contain exactly one `manager.AllowAccess` call, and it is `AllowAccess
(username, topic, permission)`; if `manager.User` reports `ErrUserNotFound`
or any other error, or returns an admin user, `changeAccess` returns an error
and adds no `manager.AllowAccess` call. -/
theorem changeAccess_allowAccess (w : World) (manager : Manager)
    (username topic perms : String) (tr : Trace) (permission : Permission)
    (hperms : changeAccessAccepts perms = true)
    (hparse : w.ParsePermission perms = .ok permission) :
    (∀ u, manager.User (tr ++ [.ParsePermission perms]) username = .ok u →
      u.Role ≠ w.RoleAdmin →
      ∃ added : Trace, (changeAccess w manager username topic perms tr).2 = tr ++ added ∧
        added.filter Event.isAllowAccess = [.AllowAccess username topic permission]) ∧
    (((∃ err, manager.User (tr ++ [.ParsePermission perms]) username = .error err) ∨
      (∃ u, manager.User (tr ++ [.ParsePermission perms]) username = .ok u ∧
        u.Role = w.RoleAdmin)) →
      (∃ err, (changeAccess w manager username topic perms tr).1 = some err) ∧
      ∃ added : Trace, (changeAccess w manager username topic perms tr).2 = tr ++ added ∧
        added.filter Event.isAllowAccess = []) := by
  constructor
  · intro u huser hrole
    obtain ⟨rest, hrest, hdisp⟩ :=
      changeAccess_granted_trace w manager username topic perms tr permission u
        hperms hparse huser hrole
    refine ⟨[.ParsePermission perms, .User username, .AllowAccess username topic permission]
      ++ rest, by rw [hrest]; simp, ?_⟩
    rw [List.filter_append, filter_isAllowAccess_of_display rest hdisp]
    simp [Event.isAllowAccess]
  · unfold changeAccessAccepts at hperms
    rintro (⟨err, herr⟩ | ⟨u, huser, hrole⟩)
    · unfold changeAccess
      simp only [hperms, Bool.not_true, Bool.false_eq_true, if_false, hparse, herr]
      split
      · exact ⟨⟨_, rfl⟩, [.ParsePermission perms, .User username], by simp,
          by simp [Event.isAllowAccess]⟩
      · exact ⟨⟨_, rfl⟩, [.ParsePermission perms, .User username], by simp,
          by simp [Event.isAllowAccess]⟩
    · unfold changeAccess
      simp only [hperms, Bool.not_true, Bool.false_eq_true, if_false, hparse, huser, hrole,
        if_true]
      exact ⟨⟨_, rfl⟩, [.ParsePermission perms, .User username], by simp,
        by simp [Event.isAllowAccess]⟩

/-- C4 witness: `changeAccess (phil, mytopic, ro)` in the demo world, where
phil is a regular user. -/
theorem changeAccess_allowAccess_witness :
    (∀ u, demoManager.User ([] ++ [.ParsePermission "ro"]) "phil" = .ok u →
      u.Role ≠ demoWorld0.RoleAdmin →
      ∃ added : Trace, (changeAccess demoWorld0 demoManager "phil" "mytopic" "ro" []).2
          = [] ++ added ∧
        added.filter Event.isAllowAccess = [.AllowAccess "phil" "mytopic" .ReadOnly]) ∧
    (((∃ err, demoManager.User ([] ++ [.ParsePermission "ro"]) "phil" = .error err) ∨
      (∃ u, demoManager.User ([] ++ [.ParsePermission "ro"]) "phil" = .ok u ∧
        u.Role = demoWorld0.RoleAdmin)) →
      (∃ err, (changeAccess demoWorld0 demoManager "phil" "mytopic" "ro" []).1 = some err) ∧
      ∃ added : Trace, (changeAccess demoWorld0 demoManager "phil" "mytopic" "ro" []).2
          = [] ++ added ∧
        added.filter Event.isAllowAccess = []) :=
  changeAccess_allowAccess demoWorld0 demoManager "phil" "mytopic" "ro" [] .ReadOnly
    (by decide) (by rfl)

theorem user_message_ne_permissionError (s t : String) :
    Error.new ("user " ++ s ++ t) ≠ permissionError := by
  intro h
  have h1 : ("user " ++ s ++ t).data = ("permission must be one of: read-write, read-only, "
    ++ "write-only, or deny " ++ "(or the aliases: read, ro, write, wo, none)").data :=
    congrArg String.data (Error.new.inj h)
  simp only [String.data_append] at h1
  have h2 := congrArg List.head? h1
  simp at h2

theorem showUsers_result (w : World) (manager : Manager) (users : List User) :
    ∀ tr : Trace, (showUsers w manager users tr).1 = none ∨
      ∃ e, (showUsers w manager users tr).1 = some (.ext e) := by
  induction users with
  | nil => intro tr; exact Or.inl rfl
  | cons u users ih =>
    intro tr
    simp only [showUsers]
    split
    · exact Or.inr ⟨_, rfl⟩
    · exact ih _

theorem showUserAccess_result (w : World) (manager : Manager) (username : String)
    (tr : Trace) :
    (showUserAccess w manager username tr).1 = none ∨
    (∃ e, (showUserAccess w manager username tr).1 = some (.ext e)) ∨
    (showUserAccess w manager username tr).1
      = some (.new ("user " ++ username ++ " does not exist")) := by
  unfold showUserAccess
  split
  · split
    · exact Or.inr (Or.inr rfl)
    · exact Or.inr (Or.inl ⟨_, rfl⟩)
  · rcases showUsers_result w manager [_] (tr ++ [.User username]) with h | h
    · exact Or.inl h
    · exact Or.inr (Or.inl h)

theorem changeAccess_accepted_result (w : World) (manager : Manager)
    (username topic perms : String) (tr : Trace)
    (hperms : changeAccessAccepts perms = true) :
    ((changeAccess w manager username topic perms tr).1 = none ∨
      (∃ e, (changeAccess w manager username topic perms tr).1 = some (.ext e)) ∨
      (∃ t, (changeAccess w manager username topic perms tr).1
        = some (.new ("user " ++ username ++ t)))) ∧
    ∃ rest : Trace, (changeAccess w manager username topic perms tr).2
      = tr ++ .ParsePermission perms :: rest := by
  unfold changeAccessAccepts at hperms
  unfold changeAccess
  simp only [hperms, Bool.not_true, Bool.false_eq_true, if_false]
  split
  · exact ⟨Or.inr (Or.inl ⟨_, rfl⟩), [], rfl⟩
  · split
    · split
      · exact ⟨Or.inr (Or.inr ⟨_, rfl⟩), [.User username], by simp⟩
      · exact ⟨Or.inr (Or.inl ⟨_, rfl⟩), [.User username], by simp⟩
    · split
      · exact ⟨Or.inr (Or.inr ⟨_, rfl⟩), [.User username], by simp⟩
      · split
        · exact ⟨Or.inr (Or.inl ⟨_, rfl⟩), _,
            by simp only [List.append_assoc]; rfl⟩
        · refine ⟨?_, ?_⟩
          · rcases showUserAccess_result w manager username _ with h | h | h
            · exact Or.inl h
            · exact Or.inr (Or.inl h)
            · exact Or.inr (Or.inr ⟨_, h⟩)
          · obtain ⟨added, hadd, -⟩ := showUserAccess_displayOnly w manager username
              (if Permission.IsReadWrite _ = true then _ else
                if Permission.IsRead _ = true then _ else
                  if Permission.IsWrite _ = true then _ else _)
            rw [hadd]
            split_ifs <;> exact ⟨_, by simp only [List.append_assoc, List.singleton_append,
              List.cons_append, List.nil_append]; rfl⟩

theorem changeAccess_check (w : World) (manager : Manager)
    (username topic perms : String) (tr : Trace) :
    (perms ∉ "" :: documentedPermissions →
      changeAccess w manager username topic perms tr = (some permissionError, tr)) ∧
    (perms ∈ "" :: documentedPermissions →
      (changeAccess w manager username topic perms tr).1 ≠ some permissionError ∧
      ∃ rest : Trace, (changeAccess w manager username topic perms tr).2
        = tr ++ .ParsePermission perms :: rest) := by
  constructor
  · intro h
    have hc : util_Contains ["", "read-write", "rw", "read-only", "read", "ro", "write-only",
        "write", "wo", "none", "deny"] perms = false := by
      simp only [documentedPermissions, List.mem_cons, List.mem_singleton, not_or,
        List.not_mem_nil, or_false] at h
      simp [util_Contains, h]
    simp [changeAccess, hc, permissionError]
  · intro h
    have hc : changeAccessAccepts perms = true := by
      simp only [documentedPermissions, List.mem_cons, List.mem_singleton,
        List.not_mem_nil, or_false] at h
      simp only [changeAccessAccepts, util_Contains, List.elem_eq_mem, List.mem_cons,
        List.mem_singleton, List.not_mem_nil, or_false, decide_eq_true_eq]
      tauto
    obtain ⟨hres, htr⟩ := changeAccess_accepted_result w manager username topic perms tr hc
    refine ⟨?_, htr⟩
    rcases hres with h | ⟨e, h⟩ | ⟨t, h⟩
    · rw [h]; exact fun h => nomatch h
    · rw [h]; intro h'; exact absurd (Option.some.inj h') (by simp [permissionError])
    · rw [h]; intro h'
      exact user_message_ne_permissionError username t (Option.some.inj h')

theorem not_permissionError_of_shape (username : String) (x : Option Error)
    (h : x = none ∨ (∃ e, x = some (.ext e)) ∨ ∃ t, x = some (.new ("user " ++ username ++ t))) :
    x ≠ some permissionError := by
  rcases h with h | ⟨e, h⟩ | ⟨t, h⟩
  · rw [h]; exact fun h => nomatch h
  · rw [h]; intro h'; exact absurd (Option.some.inj h') (by simp [permissionError])
  · rw [h]; intro h'
    exact user_message_ne_permissionError username t (Option.some.inj h')

theorem showUserAccess_ne_permissionError (w : World) (manager : Manager) (username : String)
    (tr : Trace) : (showUserAccess w manager username tr).1 ≠ some permissionError := by
  rcases showUserAccess_result w manager username tr with h | h | h
  · exact not_permissionError_of_shape username _ (Or.inl h)
  · exact not_permissionError_of_shape username _ (Or.inr (Or.inl h))
  · exact not_permissionError_of_shape username _ (Or.inr (Or.inr ⟨_, h⟩))

theorem showAccess_ne_permissionError (w : World) (manager : Manager) (username : String)
    (tr : Trace) : (showAccess w manager username tr).1 ≠ some permissionError := by
  unfold showAccess
  split
  · unfold showAllAccess
    split
    · exact fun h => absurd (Option.some.inj h) (by simp [permissionError])
    · rcases showUsers_result w manager _ (tr ++ [.Users]) with h | h
      · exact not_permissionError_of_shape username _ (Or.inl h)
      · exact not_permissionError_of_shape username _ (Or.inr (Or.inl h))
  · exact showUserAccess_ne_permissionError w manager username tr

theorem resetAccess_ne_permissionError (w : World) (manager : Manager) (username topic : String)
    (tr : Trace) : (resetAccess w manager username topic tr).1 ≠ some permissionError := by
  unfold resetAccess
  split
  · unfold resetAllAccess
    split
    · exact fun h => absurd (Option.some.inj h) (by simp [permissionError])
    · exact fun h => nomatch h
  · split
    · unfold resetUserAccess
      split
      · exact fun h => absurd (Option.some.inj h) (by simp [permissionError])
      · exact showUserAccess_ne_permissionError w manager username _
    · unfold resetUserTopicAccess
      split
      · exact fun h => absurd (Option.some.inj h) (by simp [permissionError])
      · exact showUserAccess_ne_permissionError w manager username _

theorem createUserManager_error_ne_permissionError (w : World) (c : Context) (tr tr1 : Trace)
    (err : Error) (h : createUserManager w c tr = (.error err, tr1)) :
    err ≠ permissionError := by
  unfold createUserManager at h
  dsimp only at h
  split at h
  · injection h with h1 _
    injection h1 with h1
    rw [← h1]; decide
  · split at h
    · injection h with h1 _
      injection h1 with h1
      rw [← h1]; decide
    · split at h
      · injection h with h1 _
        injection h1 with h1
        rw [← h1]; decide
      · split at h
        · injection h with h1 _
          injection h1 with h1
          rw [← h1]; simp [permissionError]
        · injection h with h1 _
          exact nomatch h1

/-- C5: on every command line, `changeAccess` accepts exactly the ten
documented permission strings, compared case-sensitively.  `execUserAccess`
runs `changeAccess` when a manager was made, there is no `--reset` and
PERMISSION is not empty; then, for PERMISSION outside the ten strings, the
command returns the "permission must be one of" error with the trace as the
manager's construction left it (no `user.ParsePermission` of it, no manager
operation), and for PERMISSION among the ten the next interaction is
`user.ParsePermission (PERMISSION)`; and the command returns that error on
no other command line, so never for one of the ten strings. -/
theorem changeAccess_permissions (w : World) (c : Context) (tr : Trace) :
    ((execUserAccess w c tr).1 = some permissionError ↔
      c.NArg ≤ 3 ∧ (∃ manager tr1, createUserManager w c tr = (.ok manager, tr1)) ∧
        c.reset = false ∧ c.Get 2 ≠ "" ∧ c.Get 2 ∉ documentedPermissions) ∧
    (∀ manager tr1, createUserManager w c tr = (.ok manager, tr1) → c.NArg ≤ 3 →
      c.reset = false → c.Get 2 ≠ "" →
      execUserAccess w c tr
        = changeAccess w manager (accessUsername w c) (c.Get 1) (c.Get 2) tr1 ∧
      (c.Get 2 ∉ documentedPermissions →
        execUserAccess w c tr = (some permissionError, tr1)) ∧
      (c.Get 2 ∈ documentedPermissions →
        ∃ rest, (execUserAccess w c tr).2 = tr1 ++ .ParsePermission (c.Get 2) :: rest)) := by
  have hchange : ∀ manager tr1, createUserManager w c tr = (.ok manager, tr1) → c.NArg ≤ 3 →
      c.reset = false → c.Get 2 ≠ "" →
      execUserAccess w c tr
        = changeAccess w manager (accessUsername w c) (c.Get 1) (c.Get 2) tr1 := by
    intro manager tr1 hc hn hr hp
    have hn3 : ¬ c.NArg > 3 := by omega
    simp [execUserAccess, hn3, hc, hr, hp, accessUsername, userEveryone]
  constructor
  · constructor
    · intro h
      by_cases hn : c.NArg > 3
      · simp only [execUserAccess, if_pos hn] at h
        exact absurd h (by decide)
      · have hn3 : c.NArg ≤ 3 := by omega
        rcases hcr : createUserManager w c tr with ⟨res, tr1⟩
        cases res with
        | error err =>
          simp only [execUserAccess, if_neg hn, hcr] at h
          exact absurd (Option.some.inj h)
            (createUserManager_error_ne_permissionError w c tr tr1 err hcr)
        | ok manager =>
          cases hr : c.reset with
          | true =>
            by_cases hp : c.Get 2 = ""
            · have hexec : execUserAccess w c tr
                  = resetAccess w manager (accessUsername w c) (c.Get 1) tr1 := by
                simp [execUserAccess, hn, hcr, hr, hp, accessUsername, userEveryone]
              rw [hexec] at h
              exact absurd h (resetAccess_ne_permissionError w manager _ _ tr1)
            · have hexec : execUserAccess w c tr = (some (.new
                  "too many arguments, please check 'ntfy access --help' for usage details"),
                  tr1) := by
                simp [execUserAccess, hn, hcr, hr, hp]
              rw [hexec] at h
              exact absurd (show some (Error.new
                "too many arguments, please check 'ntfy access --help' for usage details")
                  = some permissionError from h) (by decide)
          | false =>
            by_cases hp : c.Get 2 = ""
            · by_cases ht : c.Get 1 = ""
              · have hexec : execUserAccess w c tr
                    = showAccess w manager (accessUsername w c) tr1 := by
                  simp [execUserAccess, hn, hcr, hr, hp, ht, accessUsername, userEveryone]
                rw [hexec] at h
                exact absurd h (showAccess_ne_permissionError w manager _ tr1)
              · have hexec : execUserAccess w c tr = (some (.new
                    "invalid syntax, please check 'ntfy access --help' for usage details"),
                    tr1) := by
                  simp [execUserAccess, hn, hcr, hr, hp, ht]
                rw [hexec] at h
                exact absurd (show some (Error.new
                  "invalid syntax, please check 'ntfy access --help' for usage details")
                    = some permissionError from h) (by decide)
            · refine ⟨hn3, ⟨manager, tr1, rfl⟩, rfl, hp, ?_⟩
              intro hmem
              rw [hchange manager tr1 hcr hn3 hr hp] at h
              exact ((changeAccess_check w manager (accessUsername w c) (c.Get 1) (c.Get 2)
                tr1).2 (List.mem_cons_of_mem _ hmem)).1 h
    · rintro ⟨hn3, ⟨manager, tr1, hc⟩, hr, hp, hnot⟩
      rw [hchange manager tr1 hc hn3 hr hp,
        (changeAccess_check w manager (accessUsername w c) (c.Get 1) (c.Get 2) tr1).1
          (by
            intro hmem
            rcases List.mem_cons.mp hmem with h | h
            · exact hp h
            · exact hnot h)]
  · intro manager tr1 hc hn3 hr hp
    have hexec := hchange manager tr1 hc hn3 hr hp
    refine ⟨hexec, ?_, ?_⟩
    · intro hnot
      rw [hexec]
      exact (changeAccess_check w manager (accessUsername w c) (c.Get 1) (c.Get 2) tr1).1
        (by
          intro hmem
          rcases List.mem_cons.mp hmem with h | h
          · exact hp h
          · exact hnot h)
    · intro hmem
      rw [hexec]
      exact ((changeAccess_check w manager (accessUsername w c) (c.Get 1) (c.Get 2)
        tr1).2 (List.mem_cons_of_mem _ hmem)).2

/-- C5 witness: in the demo world `ntfy access phil mytopic RW` returns the
"permission must be one of" error right after the manager is made, and
`ntfy access phil mytopic rw` goes on to `user.ParsePermission`. -/
theorem changeAccess_permissions_witness :
    (execUserAccess demoWorld0 (demoContext ["phil", "mytopic", "RW"] false) []
        = changeAccess demoWorld0 demoManager
            (accessUsername demoWorld0 (demoContext ["phil", "mytopic", "RW"] false))
            ((demoContext ["phil", "mytopic", "RW"] false).Get 1)
            ((demoContext ["phil", "mytopic", "RW"] false).Get 2)
            [.ParsePermission "read-write",
              .NewManager ⟨"user.db", "", .ReadWrite, false, 10, 33⟩] ∧
      ((demoContext ["phil", "mytopic", "RW"] false).Get 2 ∉ documentedPermissions →
        execUserAccess demoWorld0 (demoContext ["phil", "mytopic", "RW"] false) []
          = (some permissionError, [.ParsePermission "read-write",
              .NewManager ⟨"user.db", "", .ReadWrite, false, 10, 33⟩])) ∧
      ((demoContext ["phil", "mytopic", "RW"] false).Get 2 ∈ documentedPermissions →
        ∃ rest, (execUserAccess demoWorld0 (demoContext ["phil", "mytopic", "RW"] false) []).2
          = [.ParsePermission "read-write",
              .NewManager ⟨"user.db", "", .ReadWrite, false, 10, 33⟩]
            ++ .ParsePermission ((demoContext ["phil", "mytopic", "RW"] false).Get 2)
              :: rest)) ∧
    execUserAccess demoWorld0 (demoContext ["phil", "mytopic", "RW"] false) []
      = (some permissionError, [.ParsePermission "read-write",
          .NewManager ⟨"user.db", "", .ReadWrite, false, 10, 33⟩]) ∧
    (execUserAccess demoWorld0 (demoContext ["phil", "mytopic", "rw"] false) []).1 = none :=
  ⟨(changeAccess_permissions demoWorld0 (demoContext ["phil", "mytopic", "RW"] false) []).2
      demoManager _ (by rfl) (by decide) (by rfl) (by decide),
    by decide, by decide⟩

/-- C6: `createUserManager` returns an error without calling
`user.NewManager` whenever the `auth-file` option is empty, or names a file
that does not exist, or `auth-default-access` does not parse as a permission;
otherwise it calls `user.NewManager` exactly once, with a config whose
`Filename` is the `auth-file` option, whose `DefaultAccess` is the parsed
`auth-default-access` and whose `ProvisionEnabled` is false, and returns what
that call returns. -/
theorem createUserManager_newManager (w : World) (c : Context) (tr : Trace) :
    ((c.authFile = "" ∨ w.FileExists c.authFile = false ∨
        ∃ e, w.ParsePermission c.authDefaultAccess = .error e) →
      ∃ err added, createUserManager w c tr = (.error err, tr ++ added) ∧
        added.filter Event.isNewManager = []) ∧
    (c.authFile ≠ "" → w.FileExists c.authFile = true →
      ∀ p, w.ParsePermission c.authDefaultAccess = .ok p →
      ∃ conf : Config, conf.Filename = c.authFile ∧ conf.DefaultAccess = p ∧
        conf.ProvisionEnabled = false ∧
        (createUserManager w c tr).2
          = tr ++ [.ParsePermission c.authDefaultAccess, .NewManager conf] ∧
        ((createUserManager w c tr).2.drop tr.length).filter Event.isNewManager
          = [.NewManager conf] ∧
        (createUserManager w c tr).1
          = (w.NewManager (tr ++ [.ParsePermission c.authDefaultAccess]) conf).mapError
              Error.ext) := by
  constructor
  · intro h
    unfold createUserManager
    dsimp only
    by_cases h1 : c.authFile = ""
    · rw [if_pos h1]
      exact ⟨_, [], by rw [List.append_nil], rfl⟩
    · by_cases h2 : w.FileExists c.authFile = false
      · rw [if_neg h1, if_pos (by simp [h2])]
        exact ⟨_, [], by rw [List.append_nil], rfl⟩
      · rcases h with h | h | ⟨e, he⟩
        · exact absurd h h1
        · exact absurd h h2
        · rw [if_neg h1, if_neg (by simpa using h2)]
          simp only [he]
          exact ⟨_, _, rfl, rfl⟩
  · intro h1 h2 p hp
    refine ⟨⟨c.authFile, c.authStartupQueries, p, false, w.DefaultUserPasswordBcryptCost,
      w.DefaultUserStatsQueueWriterInterval⟩, rfl, rfl, rfl, ?_⟩
    unfold createUserManager
    simp only [h1, h2, hp, if_false, Bool.not_true, Bool.false_eq_true]
    split <;> rename_i heq <;>
      simp [heq, Except.mapError, Event.isNewManager]

/-- C6 witness: in the demo world an unset `auth-file` gives an error and no
`user.NewManager`, and `auth-file` set to user.db gives one `user.NewManager`
call. -/
theorem createUserManager_newManager_witness :
    (∃ err added, createUserManager demoWorld0
        ⟨[], false, "user", false, "", "", "read-write"⟩ [] = (.error err, [] ++ added) ∧
      added.filter Event.isNewManager = []) ∧
    (∃ conf : Config, conf.Filename = "user.db" ∧ conf.DefaultAccess = .ReadWrite ∧
      conf.ProvisionEnabled = false ∧
      (createUserManager demoWorld0 (demoContext [] false) []).2
        = [] ++ [.ParsePermission "read-write", .NewManager conf] ∧
      ((createUserManager demoWorld0 (demoContext [] false) []).2.drop
        ([] : Trace).length).filter Event.isNewManager = [.NewManager conf] ∧
      (createUserManager demoWorld0 (demoContext [] false) []).1
        = (demoWorld0.NewManager ([] ++ [.ParsePermission "read-write"]) conf).mapError
            Error.ext) :=
  ⟨(createUserManager_newManager demoWorld0
      ⟨[], false, "user", false, "", "", "read-write"⟩ []).1 (Or.inl rfl),
    (createUserManager_newManager demoWorld0 (demoContext [] false) []).2
      (by decide) (by rfl) .ReadWrite (by rfl)⟩

/-- C7 (the code at the failing input): when the preliminary lookup
`manager.User (phil)` returns a storage error other than `ErrUserNotFound`,
each of the five user commands drops that error, goes on to its mutating
manager call and returns nil; `changeAccess` and `showAccess`, given the same
manager, return the storage error and stop. -/
theorem execUser_lookup_error_dropped :
    execUserDel failingLookupWorld (demoContext ["phil"] false) []
      = (none, [.ParsePermission "read-write",
          .NewManager ⟨"user.db", "", .ReadWrite, false, 10, 33⟩,
          .User "phil", .RemoveUser "phil", .stdout "user phil removed\n"]) ∧
    execUserAdd failingLookupWorld (demoContext ["phil"] false) []
      = (none, [.ParsePermission "read-write",
          .NewManager ⟨"user.db", "", .ReadWrite, false, 10, 33⟩,
          .User "phil", .AddUser "phil" (goBytes "hunter2") "user" false,
          .stdout "user phil added with role user\n"]) ∧
    execUserChangePass failingLookupWorld (demoContext ["phil"] false) []
      = (none, [.ParsePermission "read-write",
          .NewManager ⟨"user.db", "", .ReadWrite, false, 10, 33⟩,
          .User "phil", .ChangePassword "phil" (goBytes "hunter2") false,
          .stdout "changed password for user phil\n"]) ∧
    execUserChangeRole failingLookupWorld (demoContext ["phil", "admin"] false) []
      = (none, [.ParsePermission "read-write",
          .NewManager ⟨"user.db", "", .ReadWrite, false, 10, 33⟩,
          .User "phil", .ChangeRole "phil" "admin",
          .stdout "changed role for user phil to admin\n"]) ∧
    execUserChangeTier failingLookupWorld (demoContext ["phil", "pro"] false) []
      = (none, [.ParsePermission "read-write",
          .NewManager ⟨"user.db", "", .ReadWrite, false, 10, 33⟩,
          .User "phil", .ChangeTier "phil" "pro",
          .stdout "changed tier for user phil to pro\n"]) ∧
    changeAccess failingLookupWorld failingLookupManager "phil" "mytopic" "rw" []
      = (some (.ext (.other "database is locked")),
          [.ParsePermission "rw", .User "phil"]) ∧
    showAccess failingLookupWorld failingLookupManager "phil" []
      = (some (.ext (.other "database is locked")), [.User "phil"]) := by
  refine ⟨by decide, by decide, by decide, by decide, by decide, by decide, by decide⟩

/-- C8 (the code at the failing input): with `NTFY_PASSWORD_HASH` set to the
empty string, `execUserAdd` and `execUserChangePass` prompt for the password
and pass what was typed (the word secret) to `manager.AddUser` and
`manager.ChangePassword` with the already-hashed flag true. -/
theorem execUser_typed_password_hashed :
    execUserAdd emptyHashWorld (demoContext ["alice"] false) []
      = (none, [.ParsePermission "read-write",
          .NewManager ⟨"user.db", "", .ReadWrite, false, 10, 33⟩,
          .User "alice", .stderr "password: ", .ReadPassword,
          .stderr "\r                         \rconfirm: ", .ReadPassword,
          .stderr "\r                         \r",
          .AddUser "alice" (goBytes "secret") "user" true,
          .stdout "user alice added with role user\n"]) ∧
    execUserChangePass emptyHashWorld (demoContext ["phil"] false) []
      = (none, [.ParsePermission "read-write",
          .NewManager ⟨"user.db", "", .ReadWrite, false, 10, 33⟩,
          .User "phil", .stderr "password: ", .ReadPassword,
          .stderr "\r                         \rconfirm: ", .ReadPassword,
          .stderr "\r                         \r",
          .ChangePassword "phil" (goBytes "secret") true,
          .stdout "changed password for user phil\n"]) ∧
    emptyHashWorld.LookupEnv "NTFY_PASSWORD_HASH" = some "" ∧
    emptyHashWorld.LookupEnv "NTFY_PASSWORD" = none := by
  refine ⟨by decide, by decide, by decide, by decide⟩

theorem everyone_part (w : World) (manager : Manager) (u : User) (T : Trace) :
    (if u.Name = w.Everyone then
      (if (manager.DefaultAccess T).IsReadWrite = true then
        T ++ [.DefaultAccess]
          ++ [.stdout "- read-write access to all (other) topics (server config)\n"]
      else if (manager.DefaultAccess T).IsRead = true then
        T ++ [.DefaultAccess]
          ++ [.stdout "- read-only access to all (other) topics (server config)\n"]
      else if (manager.DefaultAccess T).IsWrite = true then
        T ++ [.DefaultAccess]
          ++ [.stdout "- write-only access to all (other) topics (server config)\n"]
      else
        T ++ [.DefaultAccess]
          ++ [.stdout "- no access to any (other) topics (server config)\n"])
    else T)
    = T ++ (if u.Name = w.Everyone then
        [.DefaultAccess, .stdout (defaultAccessLine (manager.DefaultAccess T))]
      else []) := by
  by_cases he : u.Name = w.Everyone
  · rw [if_pos he, if_pos he]
    unfold defaultAccessLine
    cases manager.DefaultAccess T <;> simp [Permission.IsReadWrite, Permission.IsRead,
      Permission.IsWrite]
  · rw [if_neg he, if_neg he, List.append_nil]

theorem showUsers_step (w : World) (manager : Manager) (u : User) (users : List User)
    (tr : Trace) (grants : List Grant) (hgrants : manager.Grants tr u.Name = .ok grants) :
    showUsers w manager (u :: users) tr
      = showUsers w manager users (tr ++ userAccessEvents w manager u grants tr) := by
  simp only [showUsers, hgrants]
  congr 1
  rw [everyone_part]
  unfold userAccessEvents
  by_cases hrole : u.Role = w.RoleAdmin
  · simp only [if_pos hrole]
    unfold userHeaderLine adminAccessLine
    simp only [List.append_assoc, List.singleton_append, List.cons_append, List.nil_append]
  · simp only [if_neg hrole]
    by_cases hlen : grants.length > 0
    · simp only [if_pos hlen]
      unfold userHeaderLine grantLine
      simp only [apply_ite Event.stdout, List.append_assoc, List.singleton_append,
        List.cons_append, List.nil_append]
    · simp only [if_neg hlen]
      unfold userHeaderLine noGrantsLine
      simp only [List.append_assoc, List.singleton_append, List.cons_append, List.nil_append]

theorem showUsers_single (w : World) (manager : Manager) (u : User) (tr : Trace)
    (grants : List Grant) (hgrants : manager.Grants tr u.Name = .ok grants) :
    showUsers w manager [u] tr = (none, tr ++ userAccessEvents w manager u grants tr) := by
  rw [showUsers_step w manager u [] tr grants hgrants]
  rfl

theorem showUsers_cons_trace (w : World) (manager : Manager) (u : User) (users : List User)
    (tr : Trace) (grants : List Grant) (hgrants : manager.Grants tr u.Name = .ok grants) :
    ∃ rest, (showUsers w manager (u :: users) tr).2
      = tr ++ userAccessEvents w manager u grants tr ++ rest := by
  rw [showUsers_step w manager u users tr grants hgrants]
  obtain ⟨rest, hrest, -⟩ := showUsers_displayOnly w manager users
    (tr ++ userAccessEvents w manager u grants tr)
  exact ⟨rest, hrest⟩

theorem userAccessEvents_admin (w : World) (manager : Manager) (u : User) (grants : List Grant)
    (tr : Trace) (hrole : u.Role = w.RoleAdmin) (hname : u.Name ≠ w.Everyone) :
    userAccessEvents w manager u grants tr
      = [.Grants u.Name, .stdout (userHeaderLine u), .stdout adminAccessLine] := by
  unfold userAccessEvents
  rw [if_pos hrole, if_neg hname]
  rfl

theorem append_ne_of_not_startsWith (pre rest L : String)
    (h : L.data.take pre.data.length ≠ pre.data) : pre ++ rest ≠ L := by
  intro heq
  apply h
  rw [← heq, String.data_append, List.take_left]

theorem grantLine_start (g : Grant) :
    ∃ pre rest, pre ∈ grantLineStarts ∧ grantLine g = pre ++ rest := by
  unfold grantLine
  split
  · exact ⟨"- read-write access to topic ", _, by simp [grantLineStarts],
      (String.append_assoc _ _ _).trans (String.append_assoc _ _ _)⟩
  · split
    · exact ⟨"- read-only access to topic ", _, by simp [grantLineStarts],
        (String.append_assoc _ _ _).trans (String.append_assoc _ _ _)⟩
    · split
      · exact ⟨"- write-only access to topic ", _, by simp [grantLineStarts],
          (String.append_assoc _ _ _).trans (String.append_assoc _ _ _)⟩
      · exact ⟨"- no access to topic ", _, by simp [grantLineStarts],
          (String.append_assoc _ _ _).trans (String.append_assoc _ _ _)⟩

theorem grantLine_ne (g : Grant) (L : String)
    (h : ∀ pre ∈ grantLineStarts, L.data.take pre.data.length ≠ pre.data) :
    grantLine g ≠ L := by
  obtain ⟨pre, rest, hpre, heq⟩ := grantLine_start g
  rw [heq]
  exact append_ne_of_not_startsWith pre rest L (h pre hpre)

theorem userHeaderLine_start (u : User) : ∃ rest, userHeaderLine u = "user " ++ rest := by
  unfold userHeaderLine
  exact ⟨_, by simp only [String.append_assoc]; rfl⟩

theorem grantLine_ne_header (g : Grant) (u : User) : grantLine g ≠ userHeaderLine u := by
  obtain ⟨rest, heq⟩ := userHeaderLine_start u
  obtain ⟨pre, rest', hpre, heq'⟩ := grantLine_start g
  rw [heq, heq']
  intro h
  have h1 := congrArg (fun s => s.data.head?) h
  simp only [String.data_append] at h1
  simp only [grantLineStarts, List.mem_cons, List.mem_singleton, List.not_mem_nil,
    or_false] at hpre
  rcases hpre with rfl | rfl | rfl | rfl <;> simp at h1

theorem noGrantsLine_ne_header (u : User) : noGrantsLine ≠ userHeaderLine u := by
  obtain ⟨rest, heq⟩ := userHeaderLine_start u
  rw [heq]
  exact fun h => append_ne_of_not_startsWith "user " rest noGrantsLine (by decide) h.symm

/-- C9: for a user `u` with role admin (who, the anonymous sentinel never
being admin, is not named `user.Everyone`) and whatever list of grants
`manager.Grants` returns for `u`, the round of `showUsers` for `u` is exactly
the `Grants` call, the header line of `u` and the single line
"- read-write access to all topics (admin role)": that is the whole output when
`u` is the only user, and in a longer list the remaining users follow it; no
per-grant line and no "- no topic-specific permissions" line is among these
lines, where a per-grant line is what `showUsers` prints for each grant of a
user who is not admin, and "- no topic-specific permissions" is what it prints
for such a user without grants. -/
theorem showUsers_admin (w : World) (manager : Manager) (u : User) (users : List User)
    (tr : Trace) (grants : List Grant) (hrole : u.Role = w.RoleAdmin)
    (hsentinel : u.Name = w.Everyone → u.Role ≠ w.RoleAdmin)
    (hgrants : manager.Grants tr u.Name = .ok grants) :
    showUsers w manager [u] tr
      = (none, tr ++ [.Grants u.Name, .stdout (userHeaderLine u), .stdout adminAccessLine]) ∧
    showUsers w manager (u :: users) tr
      = showUsers w manager users
          (tr ++ [.Grants u.Name, .stdout (userHeaderLine u), .stdout adminAccessLine]) ∧
    (∃ rest, (showUsers w manager (u :: users) tr).2
      = tr ++ [.Grants u.Name, .stdout (userHeaderLine u), .stdout adminAccessLine] ++ rest) ∧
    (∀ g : Grant, Event.stdout (grantLine g)
      ∉ [Event.Grants u.Name, .stdout (userHeaderLine u), .stdout adminAccessLine]) ∧
    Event.stdout noGrantsLine
      ∉ [Event.Grants u.Name, .stdout (userHeaderLine u), .stdout adminAccessLine] ∧
    (∀ (v : User) (gs : List Grant) (T : Trace), v.Role ≠ w.RoleAdmin →
      manager.Grants T v.Name = .ok gs →
      (∀ g ∈ gs, Event.stdout (grantLine g) ∈ (showUsers w manager [v] T).2) ∧
      (gs = [] → Event.stdout noGrantsLine ∈ (showUsers w manager [v] T).2)) := by
  have hname : u.Name ≠ w.Everyone := fun h => hsentinel h hrole
  have hev := userAccessEvents_admin w manager u grants tr hrole hname
  refine ⟨?_, ?_, ?_, ?_, ?_, ?_⟩
  · rw [showUsers_single w manager u tr grants hgrants, hev]
  · rw [showUsers_step w manager u users tr grants hgrants, hev]
  · obtain ⟨rest, hrest⟩ := showUsers_cons_trace w manager u users tr grants hgrants
    rw [hev] at hrest
    exact ⟨rest, hrest⟩
  · intro g hmem
    have hadmin : grantLine g ≠ adminAccessLine := grantLine_ne g _ (by decide)
    have hheader := grantLine_ne_header g u
    simp only [List.mem_cons, List.not_mem_nil, or_false, Event.stdout.injEq, reduceCtorEq,
      false_or] at hmem
    rcases hmem with h | h
    · exact hheader h
    · exact hadmin h
  · intro hmem
    have hadmin : noGrantsLine ≠ adminAccessLine := by decide
    have hheader := noGrantsLine_ne_header u
    simp only [List.mem_cons, List.not_mem_nil, or_false, Event.stdout.injEq, reduceCtorEq,
      false_or] at hmem
    rcases hmem with h | h
    · exact hheader h
    · exact hadmin h
  · intro v gs T hv hgs
    rw [showUsers_single w manager v T gs hgs]
    constructor
    · intro g hg
      have hlen : gs.length > 0 := List.length_pos_of_mem hg
      apply List.mem_append_right
      unfold userAccessEvents
      rw [if_neg hv, if_pos hlen]
      apply List.mem_append_left
      apply List.mem_append_right
      exact List.mem_map.mpr ⟨g, hg, rfl⟩
    · intro hnil
      have hlen : ¬ gs.length > 0 := by rw [hnil]; simp
      apply List.mem_append_right
      unfold userAccessEvents
      rw [if_neg hv, if_neg hlen]
      apply List.mem_append_left
      apply List.mem_append_right
      exact List.mem_singleton.mpr rfl

/-- C9 witness: the admin user root of the demo world, who has a grant on
mytopic: `showUsers` prints the header and the admin line only. -/
theorem showUsers_admin_witness :
    showUsers demoWorld0 demoManager [⟨"root", "admin", none, false⟩] []
      = (none, [] ++ [.Grants "root", .stdout (userHeaderLine ⟨"root", "admin", none, false⟩),
          .stdout adminAccessLine]) ∧
    showUsers demoWorld0 demoManager [⟨"root", "admin", none, false⟩] []
      = (none, [.Grants "root", .stdout "user root (role: admin, tier: none)\n",
          .stdout "- read-write access to all topics (admin role)\n"]) ∧
    demoManager.Grants [] "root" = .ok [⟨"mytopic", .ReadOnly, false⟩] :=
  ⟨(showUsers_admin demoWorld0 demoManager ⟨"root", "admin", none, false⟩ [] []
    [⟨"mytopic", .ReadOnly, false⟩] (by rfl) (fun h => absurd h (by decide)) (by rfl)).1,
    by decide, by rfl⟩

theorem nat_or_eq_zero (x y : Nat) : x ||| y = 0 ↔ x = 0 ∧ y = 0 := by
  constructor
  · intro h
    have hbit : ∀ i, (x.testBit i || y.testBit i) = false := by
      intro i
      rw [← Nat.testBit_or, h, Nat.zero_testBit]
    constructor
    · apply Nat.eq_of_testBit_eq
      intro i
      have := hbit i
      rw [Bool.or_eq_false_iff] at this
      rw [this.1, Nat.zero_testBit]
    · apply Nat.eq_of_testBit_eq
      intro i
      have := hbit i
      rw [Bool.or_eq_false_iff] at this
      rw [this.2, Nat.zero_testBit]
  · rintro ⟨rfl, rfl⟩
    rfl

theorem byte_step_lt (v : Nat) (a b : Byte) (hv : v < 256) : v ||| (a.val ^^^ b.val) < 256 := by
  have ha : a.val < 2 ^ 8 := a.isLt
  have hb : b.val < 2 ^ 8 := b.isLt
  have hv8 : v < 2 ^ 8 := hv
  exact Nat.or_lt_two_pow hv8 (Nat.xor_lt_two_pow ha hb)

theorem ConstantTimeCompare.loop_lt (x : List Byte) :
    ∀ (y : List Byte) (v : Nat), v < 256 → ConstantTimeCompare.loop x y v < 256 := by
  induction x with
  | nil => intro y v hv; simpa [ConstantTimeCompare.loop] using hv
  | cons a x ih =>
    intro y v hv
    cases y with
    | nil => simpa [ConstantTimeCompare.loop] using hv
    | cons b y =>
      simp only [ConstantTimeCompare.loop]
      exact ih y _ (Nat.mod_lt _ (by decide))

theorem ConstantTimeCompare.loop_eq_zero (x : List Byte) :
    ∀ (y : List Byte) (v : Nat), x.length = y.length → v < 256 →
      (ConstantTimeCompare.loop x y v = 0 ↔ v = 0 ∧ x = y) := by
  induction x with
  | nil =>
    intro y v hlen hv
    cases y with
    | nil => simp [ConstantTimeCompare.loop]
    | cons b y => simp at hlen
  | cons a x ih =>
    intro y v hlen hv
    cases y with
    | nil => simp at hlen
    | cons b y =>
      simp only [ConstantTimeCompare.loop]
      have hlen' : x.length = y.length := by simpa using hlen
      rw [ih y _ hlen' (Nat.mod_lt _ (by decide)),
        Nat.mod_eq_of_lt (byte_step_lt v a b hv), nat_or_eq_zero, Nat.xor_eq_zero]
      constructor
      · rintro ⟨⟨hv0, hab⟩, hxy⟩
        exact ⟨hv0, by rw [Fin.ext hab, hxy]⟩
      · rintro ⟨hv0, hxy⟩
        injection hxy with hab hxy
        exact ⟨⟨hv0, congrArg Fin.val hab⟩, hxy⟩

theorem ConstantTimeByteEq_zero (v : Nat) (hv : v < 256) :
    ConstantTimeByteEq v 0 = 1 ↔ v = 0 := by
  unfold ConstantTimeByteEq
  rw [Nat.xor_zero, Nat.shiftRight_eq_div_pow]
  norm_num
  omega

/-- The contract of `subtle.ConstantTimeCompare`: it is 1 exactly when the
two slices have the same length and the same bytes. -/
theorem ConstantTimeCompare_eq_one (x y : List Byte) : ConstantTimeCompare x y = 1 ↔ x = y := by
  unfold ConstantTimeCompare
  by_cases hlen : x.length = y.length
  · rw [if_neg (by simpa using hlen),
      ConstantTimeByteEq_zero _ (ConstantTimeCompare.loop_lt x y 0 (by decide)),
      ConstantTimeCompare.loop_eq_zero x y 0 hlen (by decide)]
    simp
  · rw [if_pos hlen]
    constructor
    · intro h; exact absurd h (by decide)
    · intro h; exact absurd (congrArg List.length h) hlen

theorem readPasswordAndConfirm_ok (w : World) (tr : Trace) (p : List Byte)
    (h : ConfirmedAs w tr p) :
    readPasswordAndConfirm w tr = ((p, none),
      secondReadAt tr ++ [.ReadPassword] ++ [.stderr ("\r" ++ strings_Repeat " " 25 ++ "\r")]) := by
  obtain ⟨h1, hne, h2⟩ := h
  unfold firstReadAt at h1
  unfold secondReadAt at h2
  have hlen : ¬ p.length = 0 := by simpa using hne
  have hcmp : ConstantTimeCompare p p = 1 := (ConstantTimeCompare_eq_one p p).2 rfl
  unfold readPasswordAndConfirm secondReadAt
  simp only [h1, h2, hlen, hcmp, if_false, ne_eq, not_true_eq_false]

theorem readPasswordAndConfirm_error (w : World) (tr : Trace)
    (h : ¬ ∃ p, ConfirmedAs w tr p) :
    ∃ err, (readPasswordAndConfirm w tr).1 = ([], some err) := by
  unfold readPasswordAndConfirm
  dsimp only
  split
  · exact ⟨_, rfl⟩
  · rename_i password h1
    by_cases hlen : password.length = 0
    · rw [if_pos hlen]
      exact ⟨_, rfl⟩
    · rw [if_neg hlen]
      split
      · exact ⟨_, rfl⟩
      · rename_i confirm h2
        by_cases hcmp : ConstantTimeCompare confirm password ≠ 1
        · rw [if_pos hcmp]
          exact ⟨_, rfl⟩
        · exfalso
          have heq : confirm = password :=
            (ConstantTimeCompare_eq_one confirm password).1 (not_not.mp hcmp)
          subst heq
          exact h ⟨confirm, h1, by
            intro hnil
            exact hlen (by rw [hnil]; rfl), h2⟩

/-- C10: `readPasswordAndConfirm` returns `(p, nil)` if and only if both
terminal reads succeed, the first read is `p` and is non-empty, and the second
read has the same length and the same bytes as `p` (the returned string is made
of the bytes of `p`); in every other case it returns the empty string and a
non-nil error; when the first read fails or is empty it performs no second
read (its trace ends with the first read), and otherwise it performs
two. -/
theorem readPasswordAndConfirm_spec (w : World) (tr : Trace) :
    (∀ p, (readPasswordAndConfirm w tr).1 = (p, none) ↔ ConfirmedAs w tr p) ∧
    ((¬ ∃ p, ConfirmedAs w tr p) →
      ∃ err, (readPasswordAndConfirm w tr).1 = ([], some err)) ∧
    ((∀ p, w.ReadPassword (firstReadAt tr) = .ok p → p = []) →
      (readPasswordAndConfirm w tr).2 = firstReadAt tr ++ [.ReadPassword]) ∧
    (∀ p, w.ReadPassword (firstReadAt tr) = .ok p → p ≠ [] →
      ∃ rest, (readPasswordAndConfirm w tr).2 = secondReadAt tr ++ .ReadPassword :: rest ∧
        ∀ e ∈ rest, e ≠ .ReadPassword) := by
  refine ⟨fun p => ⟨?_, ?_⟩, readPasswordAndConfirm_error w tr, ?_, ?_⟩
  · intro hres
    by_cases hex : ∃ q, ConfirmedAs w tr q
    · obtain ⟨q, hq⟩ := hex
      rw [readPasswordAndConfirm_ok w tr q hq] at hres
      have hqp : q = p := congrArg Prod.fst hres
      rw [← hqp]
      exact hq
    · obtain ⟨err, herr⟩ := readPasswordAndConfirm_error w tr hex
      rw [herr] at hres
      exact absurd (congrArg Prod.snd hres) (by simp)
  · intro hp
    rw [readPasswordAndConfirm_ok w tr p hp]
  · intro h
    unfold firstReadAt at h ⊢
    unfold readPasswordAndConfirm
    dsimp only
    split
    · rfl
    · rename_i password h1
      have := h password h1
      subst this
      rfl
  · intro p h1 hne
    unfold firstReadAt at h1
    have hlen : ¬ p.length = 0 := by simpa using hne
    unfold readPasswordAndConfirm secondReadAt
    simp only [h1, hlen, if_false]
    split
    · exact ⟨[], rfl, by simp⟩
    · split
      · exact ⟨[.stderr ("\r" ++ strings_Repeat " " 25 ++ "\r")], by simp, by simp⟩
      · exact ⟨[.stderr ("\r" ++ strings_Repeat " " 25 ++ "\r")], by simp, by simp⟩

/-- C10 witness: the word secret typed twice is returned, byte for byte; a
terminal at end of input gives an error after one read. -/
theorem readPasswordAndConfirm_spec_witness :
    (readPasswordAndConfirm emptyHashWorld []).1 = (secretBytes, none) ∧
    secretBytes = goBytes "secret" ∧
    (readPasswordAndConfirm demoWorld0 []).2 = firstReadAt [] ++ [.ReadPassword] :=
  ⟨((readPasswordAndConfirm_spec emptyHashWorld []).1 secretBytes).2 ⟨rfl, by decide, rfl⟩,
    by decide,
    (readPasswordAndConfirm_spec demoWorld0 []).2.2.1 (fun p hp => nomatch hp)⟩

/-- C12 (the code at the failing input): `resetAccess` given the empty
username and the topic mytopic calls `manager.ResetAccess ("", "")`, the reset
of every user's grants, and so does `ntfy access --reset "" mytopic`; for every
topic, `resetAccess` with the empty username is `resetAllAccess`, which never
sees the topic. -/
theorem resetAccess_empty_username_widens :
    resetAccess demoWorld0 demoManager "" "mytopic" []
      = (none, [.ResetAccess "" "", .stdout "reset access for all users\n"]) ∧
    execUserAccess demoWorld0 (demoContext ["", "mytopic"] true) []
      = (none, [.ParsePermission "read-write",
          .NewManager ⟨"user.db", "", .ReadWrite, false, 10, 33⟩,
          .ResetAccess "" "", .stdout "reset access for all users\n"]) ∧
    (∀ (w : World) (manager : Manager) (topic : String) (tr : Trace),
      resetAccess w manager "" topic tr = resetAllAccess manager tr) := by
  refine ⟨by decide, by decide, ?_⟩
  intro w manager topic tr
  simp [resetAccess]

theorem append_ne_append_of_take (p1 p2 r1 r2 : String) (n : Nat)
    (h1 : n ≤ p1.data.length) (h2 : n ≤ p2.data.length)
    (h : p1.data.take n ≠ p2.data.take n) : p1 ++ r1 ≠ p2 ++ r2 := by
  intro heq
  apply h
  have h3 : (p1 ++ r1).data.take n = (p2 ++ r2).data.take n := by rw [heq]
  rwa [String.data_append, String.data_append, List.take_append_of_le_length h1,
    List.take_append_of_le_length h2] at h3

theorem confirmationText_injective (topic : String) :
    Function.Injective (fun l : AccessLabel => l.confirmationText topic) := by
  intro l1 l2 h
  cases l1 <;> cases l2 <;> first
    | rfl
    | (simp only [AccessLabel.confirmationText, String.append_assoc] at h
       exact absurd h (append_ne_append_of_take _ _ _ _ 14 (by decide) (by decide) (by decide)))

theorem grantText_injective (pattern : String) (provisioned : Bool) :
    Function.Injective (fun l : AccessLabel => l.grantText pattern provisioned) := by
  intro l1 l2 h
  cases l1 <;> cases l2 <;> first
    | rfl
    | (simp only [AccessLabel.grantText, String.append_assoc] at h
       exact absurd h (append_ne_append_of_take _ _ _ _ 8 (by decide) (by decide) (by decide)))

theorem defaultText_injective : Function.Injective AccessLabel.defaultText := by
  intro l1 l2 h
  cases l1 <;> cases l2 <;> first
    | rfl
    | exact absurd h (by decide)

theorem changeAccess_confirmation (w : World) (manager : Manager)
    (username topic perms : String) (tr : Trace) (p : Permission) (u : User)
    (hperms : changeAccessAccepts perms = true)
    (hparse : w.ParsePermission perms = .ok p)
    (huser : manager.User (tr ++ [.ParsePermission perms]) username = .ok u)
    (hrole : u.Role ≠ w.RoleAdmin)
    (hallow : manager.AllowAccess (tr ++ [.ParsePermission perms] ++ [.User username])
      username topic p = none) :
    changeAccess w manager username topic perms tr
      = showUserAccess w manager username
          (tr ++ [.ParsePermission perms] ++ [.User username]
            ++ [.AllowAccess username topic p] ++ [.stdout (confirmationLine p topic)]) := by
  unfold changeAccessAccepts at hperms
  unfold changeAccess
  simp only [hperms, Bool.not_true, Bool.false_eq_true, if_false, hparse, huser, hrole, hallow]
  congr 1
  unfold confirmationLine
  cases p <;> rfl

theorem confirmationLine_eq_text (p : Permission) (topic : String) :
    confirmationLine p topic = (AccessLabel.ofPermission p).confirmationText topic := by
  cases p <;> rfl

theorem grantLine_eq_text (g : Grant) :
    grantLine g
      = (AccessLabel.ofPermission g.Permission).grantText g.TopicPattern g.Provisioned := by
  obtain ⟨pattern, p, provisioned⟩ := g
  cases p <;> rfl

theorem defaultAccessLine_eq_text (p : Permission) :
    defaultAccessLine p = (AccessLabel.ofPermission p).defaultText := by
  cases p <;> rfl

theorem userAccessEvents_eq_labelled (w : World) (manager : Manager) (u : User)
    (grants : List Grant) (tr : Trace) :
    userAccessEvents w manager u grants tr = labelledAccessEvents w manager u grants tr := by
  unfold userAccessEvents labelledAccessEvents
  simp only [grantLine_eq_text, defaultAccessLine_eq_text]

/-- C11: with `IsRead`, `IsWrite` and `IsReadWrite` as the spec gives them,
the chain IsReadWrite, IsRead, IsWrite, else labels ReadWrite read-write,
ReadOnly read-only, WriteOnly write-only and DenyAll no access (revoked) at
each of the three sites.  The four permissions get four distinct labels and
the four labels four distinct texts at each site.  `changeAccess`, after a
successful `manager.AllowAccess`, prints the confirmation text of the label of
the permission and then shows the user's access; a round of `showUsers` prints
`labelledAccessEvents`: for a user who is not admin the grant text of the
label of each grant, and for the user named `user.Everyone` the default text
of the label of `manager.DefaultAccess`.  All three sites use the one label
`AccessLabel.ofPermission`, so they agree. -/
theorem permission_labels (w : World) (manager : Manager) :
    (AccessLabel.ofPermission .ReadWrite = .readWrite ∧
      AccessLabel.ofPermission .ReadOnly = .readOnly ∧
      AccessLabel.ofPermission .WriteOnly = .writeOnly ∧
      AccessLabel.ofPermission .DenyAll = .noAccess) ∧
    Function.Injective AccessLabel.ofPermission ∧
    (∀ topic, Function.Injective (fun l : AccessLabel => l.confirmationText topic)) ∧
    (∀ pattern provisioned,
      Function.Injective (fun l : AccessLabel => l.grantText pattern provisioned)) ∧
    Function.Injective AccessLabel.defaultText ∧
    (∀ (username topic perms : String) (tr : Trace) (p : Permission) (u : User),
      changeAccessAccepts perms = true →
      w.ParsePermission perms = .ok p →
      manager.User (tr ++ [.ParsePermission perms]) username = .ok u →
      u.Role ≠ w.RoleAdmin →
      manager.AllowAccess (tr ++ [.ParsePermission perms] ++ [.User username])
        username topic p = none →
      changeAccess w manager username topic perms tr
        = showUserAccess w manager username
            (tr ++ [.ParsePermission perms, .User username, .AllowAccess username topic p,
              .stdout ((AccessLabel.ofPermission p).confirmationText topic)]) ∧
      ∃ rest, (changeAccess w manager username topic perms tr).2
        = tr ++ [.ParsePermission perms, .User username, .AllowAccess username topic p,
            .stdout ((AccessLabel.ofPermission p).confirmationText topic)] ++ rest) ∧
    (∀ (u : User) (users : List User) (tr : Trace) (grants : List Grant),
      manager.Grants tr u.Name = .ok grants →
      showUsers w manager [u] tr
        = (none, tr ++ labelledAccessEvents w manager u grants tr) ∧
      showUsers w manager (u :: users) tr
        = showUsers w manager users (tr ++ labelledAccessEvents w manager u grants tr) ∧
      ∃ rest, (showUsers w manager (u :: users) tr).2
        = tr ++ labelledAccessEvents w manager u grants tr ++ rest) := by
  refine ⟨⟨rfl, rfl, rfl, rfl⟩, ?_, confirmationText_injective, grantText_injective,
    defaultText_injective, ?_, ?_⟩
  · intro p q h
    cases p <;> cases q <;> first | rfl | exact absurd h (by decide)
  · intro username topic perms tr p u hperms hparse huser hrole hallow
    have hT : tr ++ [.ParsePermission perms] ++ [.User username]
        ++ [.AllowAccess username topic p] ++ [.stdout (confirmationLine p topic)]
        = tr ++ [.ParsePermission perms, .User username, .AllowAccess username topic p,
            .stdout ((AccessLabel.ofPermission p).confirmationText topic)] := by
      rw [confirmationLine_eq_text]
      simp
    have hexec := changeAccess_confirmation w manager username topic perms tr p u hperms
      hparse huser hrole hallow
    rw [hT] at hexec
    refine ⟨hexec, ?_⟩
    rw [hexec]
    obtain ⟨rest, hrest, -⟩ := showUserAccess_displayOnly w manager username
      (tr ++ [.ParsePermission perms, .User username, .AllowAccess username topic p,
        .stdout ((AccessLabel.ofPermission p).confirmationText topic)])
    exact ⟨rest, hrest⟩
  · intro u users tr grants hgrants
    rw [← userAccessEvents_eq_labelled]
    exact ⟨showUsers_single w manager u tr grants hgrants,
      showUsers_step w manager u users tr grants hgrants,
      showUsers_cons_trace w manager u users tr grants hgrants⟩

/-- C11 witness: in the demo world, `changeAccess (phil, mytopic, ro)` prints
the read-only confirmation, and `showUsers` prints a write-only grant of the
user named `user.Everyone` and the read-write default access. -/
theorem permission_labels_witness :
    (changeAccess demoWorld0 demoManager "phil" "mytopic" "ro" []
      = showUserAccess demoWorld0 demoManager "phil"
          ([] ++ [.ParsePermission "ro", .User "phil", .AllowAccess "phil" "mytopic" .ReadOnly,
            .stdout ((AccessLabel.ofPermission .ReadOnly).confirmationText "mytopic")]) ∧
      ∃ rest, (changeAccess demoWorld0 demoManager "phil" "mytopic" "ro" []).2
        = [] ++ [.ParsePermission "ro", .User "phil", .AllowAccess "phil" "mytopic" .ReadOnly,
            .stdout ((AccessLabel.ofPermission .ReadOnly).confirmationText "mytopic")]
          ++ rest) ∧
    changeAccess demoWorld0 demoManager "phil" "mytopic" "ro" []
      = (none, [.ParsePermission "ro", .User "phil", .AllowAccess "phil" "mytopic" .ReadOnly,
          .stdout "granted read-only access to topic mytopic\n\n", .User "phil",
          .Grants "phil", .stdout "user phil (role: user, tier: none)\n",
          .stdout "- no topic-specific permissions\n"]) ∧
    showUsers demoWorld0
        { demoManager with Grants := fun _ _ => .ok [⟨"up*", .WriteOnly, true⟩] }
        [⟨"*", "user", none, false⟩] []
      = (none, [.Grants "*", .stdout "user * (role: user, tier: none)\n",
          .stdout "- write-only access to topic up* (server config)\n",
          .DefaultAccess,
          .stdout "- read-write access to all (other) topics (server config)\n"]) :=
  ⟨(permission_labels demoWorld0 demoManager).2.2.2.2.2.1 "phil" "mytopic" "ro" []
      .ReadOnly ⟨"phil", "user", none, false⟩ (by decide) (by rfl) (by rfl) (by decide)
      (by rfl),
    by decide, by decide⟩

end Ntfy
